import Mathlib

set_option maxRecDepth 8000

/-!
Verification of the stream-recorder repository against its specification.

The repository ships a Rust backend (ingestion, deduplication, day-sliced
storage, recording lifecycle, quota admission), a PostgreSQL schema
(`scripts/setup.sh`), API documentation (`docs/api.md`) and a React web
client (`examples/web-client`).  The web client and the schema/docs are in
the sources; the Rust backend binary sources are not, so the pipeline core
is modelled from the specification (documented on each definition).
-/

namespace StreamRecorder

/-! ## A small model of JavaScript runtime values

Used to embed the TypeScript `ApiClient.request` functions of
`src/examples/web-client/src/api.ts` and `src/unnamed/part_003`.
JSON-parsed values are `Js` values; JavaScript truthiness and property
access (including the `TypeError` on `null`) are modelled explicitly. -/

inductive Js where
  | undefined
  | null
  | bool (b : Bool)
  | num (n : Int)
  | str (s : String)
  | obj (fields : List (String × Js))

/-- JavaScript truthiness: `undefined`, `null`, `false`, `0` and `""` are
falsy; every object is truthy. -/
def Js.truthy : Js → Bool
  | .undefined => false
  | .null => false
  | .bool b => b
  | .num n => n != 0
  | .str s => s != ""
  | .obj _ => true

/-- First-binding lookup in a parsed JSON object (parsed objects have
unique keys; we take the first binding). Missing keys give `undefined`. -/
def lookupField : List (String × Js) → String → Js
  | [], _ => .undefined
  | (k, v) :: rest, key => if k = key then v else lookupField rest key

/-- Whether a parsed JSON object has a binding for `key`. -/
def hasField (fields : List (String × Js)) (key : String) : Bool :=
  fields.any (fun kv => kv.1 = key)

/-- Errors thrown by the client code: a `TypeError` from accessing a
property of `null`/`undefined`, or an `Error` with a message. -/
inductive JsErr where
  | typeError (field : String)
  | error (msg : String)

/-- JavaScript `String(v)`, as used when a non-string lands in
`new Error(v)`. -/
def Js.asString : Js → String
  | .undefined => "undefined"
  | .null => "null"
  | .bool b => if b then "true" else "false"
  | .num n => toString n
  | .str s => s
  | .obj _ => "[object Object]"

/-- JavaScript property access `v.k`: `TypeError` on `null`/`undefined`,
field lookup on objects, `undefined` on other primitives. -/
def Js.getField : Js → String → Except JsErr Js
  | .undefined, k => .error (.typeError k)
  | .null, k => .error (.typeError k)
  | .obj fields, k => .ok (lookupField fields k)
  | _, _ => .ok .undefined

/-- JavaScript optional chaining `v?.k`. -/
def Js.getFieldOpt : Js → String → Except JsErr Js
  | .undefined, _ => .ok .undefined
  | .null, _ => .ok .undefined
  | j, k => j.getField k

namespace WebClientApi

/-- Authorization header attached by `ApiClient.request` in
`src/examples/web-client/src/api.ts` (lines 35-42): always
`Bearer ${apiKey}`, for every endpoint. -/
def authHeader (apiKey : String) (_endpoint : String) : Option String :=
  some ("Bearer " ++ apiKey)

/-- Response handling of `ApiClient.request` in
`src/examples/web-client/src/api.ts` (lines 44-49):
`const data = await response.json(); if (!response.ok) throw new
Error(data.error || "An error occurred"); return data;`.
`body` is the JSON-parsed response body. -/
def request (ok : Bool) (body : Js) : Except JsErr Js :=
  if ok then .ok body
  else
    match body.getField "error" with
    | .error e => .error e
    | .ok v => .error (.error (if v.truthy then v.asString else "An error occurred"))

end WebClientApi

namespace Part003Api

/-- Authorization header attached by `ApiClient.request` in
`src/unnamed/part_003` (lines 38-50): `Bearer ${apiKey}` only when the
endpoint is `/api/auth/credentials`, nothing otherwise. -/
def authHeader (apiKey : String) (endpoint : String) : Option String :=
  if endpoint = "/api/auth/credentials" then some ("Bearer " ++ apiKey) else none

/-- Response handling of `ApiClient.request` in `src/unnamed/part_003`
(lines 52-93), on the domain of responses whose body parsed to `body`
(the content-type, empty-body and JSON-parse checks that precede are
outside this domain): on failure it throws
`Error(parsed?.error || "An error occurred")`; on success it returns
`parsed` when `parsed.data` is truthy and wraps it as
`{ data: parsed, error: undefined }` otherwise. -/
def request (ok : Bool) (body : Js) : Except JsErr Js :=
  if ok then
    match body.getField "data" with
    | .error e => .error e
    | .ok d =>
        if d.truthy then .ok body
        else .ok (.obj [("data", body), ("error", .undefined)])
  else
    match body.getFieldOpt "error" with
    | .error e => .error e
    | .ok v => .error (.error (if v.truthy then v.asString else "An error occurred"))

end Part003Api

/-- The equivalence asserted by the spec claim: the two `ApiClient.request`
implementations attach the same Authorization header for every endpoint and
behave identically on every response. -/
def requestImplsAgree : Prop :=
  (∀ key ep, WebClientApi.authHeader key ep = Part003Api.authHeader key ep)
  ∧ (∀ ok body, WebClientApi.request ok body = Part003Api.request ok body)

/-! ## RoomList component (`src/examples/web-client/src/components/RoomList.tsx`) -/

/-- A room as typed in `src/examples/web-client/src/api.ts`. -/
structure Room where
  id : String
  name : String
  maxParticipants : Nat
  recordingEnabled : Bool

deriving DecidableEq

/-- The filter of `RoomList.loadRooms`
(`src/examples/web-client/src/components/RoomList.tsx` lines 27-29):
`(room) => room && room.id && room.name`.  A `none` element models a
`null` entry in the response array; string truthiness is non-emptiness. -/
def validRoom : Option Room → Bool
  | some r => r.id != "" && r.name != ""
  | none => false

/-- Data flow of `RoomList.loadRooms` (lines 23-38 of the first file
version): on a successful `listRooms` the component state is set to the
filtered list; if `listRooms` throws, the state is set to `[]`. -/
def loadRooms (res : Except String (List (Option Room))) : List (Option Room) :=
  match res with
  | .ok rooms => rooms.filter validRoom
  | .error _ => []

/-! ## The ingestion pipeline

The Rust backend implementing the pipeline (Session Gateway, Quota Guard,
Dedup Engine, Recording State Machine, Storage Writer) is not among the
available sources; only its database schema (`scripts/setup.sh`), its
protocol and storage documentation (`docs/api.md`) and its clients are.
The pipeline below is modelled from the spec, one room per machine
instance (rooms are independent units of work; the Duplicate Cache and
Quota Guard, shared across rooms, are per-account/per-fingerprint atomic,
which the sequential per-room model reflects). -/

/-- Frame kind, from the protocol message `frame_type: "Video"|"Audio"`. -/
inductive FrameKind where
  | video
  | audio
deriving DecidableEq

/-- A `Frame` protocol message: `{ type: "Frame", timestamp, data,
frame_type }`.  The binary payload is a byte list. -/
structure FrameMsg where
  timestamp : Nat
  payload : List Nat
  kind : FrameKind
deriving DecidableEq

/-- Wall-clock context at message arrival, supplied by the environment:
arrival time (ms), arrival calendar date, and whether the Duplicate Cache
is reachable at that moment. -/
structure Env where
  time : Nat
  date : String
  cacheUp : Bool
deriving DecidableEq

/-- A `Control` protocol message action. -/
inductive ControlAction where
  | startRecording
  | stopRecording
  | pauseRecording
  | resumeRecording
deriving DecidableEq

/-- An inbound protocol message together with its arrival context. -/
inductive Msg where
  | control (a : ControlAction) (env : Env)
  | frame (f : FrameMsg) (env : Env)

/-- Modelled from the spec: per-room/per-account configuration — the
account's quota limit (`users.quota_limit`), the room's
`deduplication_threshold` (`room_configs`), the dedup recency window and
the storage object size cap. -/
structure Config where
  room : String
  quotaLimit : Nat
  threshold : Rat
  window : Nat
  sizeCap : Nat

/-- Per-account quota, as in the `users` table (`quota_limit`,
`quota_used`). -/
structure Quota where
  limit : Nat
  used : Nat
deriving DecidableEq

/-- Modelled from the spec: the Quota Guard's atomic compare-and-increment
— admit and increment usage exactly when `usage + size <= limit`, reject
without mutating usage otherwise. -/
def quotaAdmit (q : Quota) (size : Nat) : Bool × Quota :=
  if q.used + size ≤ q.limit then (true, { q with used := q.used + size })
  else (false, q)

/-- A `DedupEntry`: content fingerprint mapped to the timestamp of the
first occurrence, with its insertion time for the recency window. -/
structure CacheEntry where
  fingerprint : List Nat
  refTs : Nat
  insertedAt : Nat
deriving DecidableEq

/-- Modelled from the spec: signature distance between two fingerprints.
The fingerprint is an exact content hash (modelled injectively by the
payload itself), so equal contents have distance 0 and distinct contents
distance 1 — the exact-match metric the spec prescribes for
`threshold = 1.0`. -/
def fpDistance (a b : List Nat) : Rat :=
  if a = b then 0 else 1

/-- Modelled from the spec: a cache entry matches a new frame when its
signature distance is within `1 - threshold` and the entry lies within the
recency window at lookup time. -/
def entryMatches (cfg : Config) (now : Nat) (fp : List Nat) (e : CacheEntry) : Bool :=
  decide (fpDistance fp e.fingerprint ≤ 1 - cfg.threshold)
    && decide (now - e.insertedAt ≤ cfg.window)

/-- Duplicate Cache lookup: the first matching in-window entry. -/
def cacheLookup (cfg : Config) (now : Nat) (fp : List Nat)
    (cache : List CacheEntry) : Option CacheEntry :=
  cache.find? (entryMatches cfg now fp)

/-- Status of a `RecordingSession` (`recordings.status`). -/
inductive SessStatus where
  | recording
  | paused
  | stopped
  | failed
deriving DecidableEq

/-- A `RecordingSession`, one per Start/Stop cycle, as in the `recordings`
table: start/end time, accumulated size and frame count, status. -/
structure RecordingSession where
  sid : Nat
  startTime : Nat
  endTime : Option Nat
  sizeBytes : Nat
  frameCount : Nat
  status : SessStatus
deriving DecidableEq

/-- A frame accepted into a storage object: its payload timestamp, the
calendar date at which it arrived, and its byte size. -/
structure StoredFrame where
  ts : Nat
  date : String
  size : Nat
deriving DecidableEq

/-- A `StorageObject`: an append log of accepted frames for one room and
one calendar day (or size-capped slice), sealed on rotation or stop.
`openedAt` is the wall-clock arrival time at which the object was opened;
`seq` is the per-day rotation sequence. -/
structure StorageObject where
  oid : Nat
  room : String
  date : String
  seq : Nat
  openedAt : Nat
  frames : List StoredFrame
  sizeBytes : Nat
  frameCount : Nat
  sealed : Bool
deriving DecidableEq

/-- Storage key, from `src/docs/api.md` (Storage Organization):
`{room_id}/{date}/{timestamp}.raw`. -/
def StorageObject.key (o : StorageObject) : String :=
  o.room ++ "/" ++ o.date ++ "/" ++ toString o.openedAt ++ ".raw"

/-- The key format asserted by the spec claim:
`{room_id}/{yyyy-mm-dd}/{sequence}.raw`. -/
def claimedSeqKey (o : StorageObject) : String :=
  o.room ++ "/" ++ o.date ++ "/" ++ toString o.seq ++ ".raw"

/-- The Storage Writer's buffer for the active session: the open object
and the objects already sealed during this session (newest first). -/
structure WriterState where
  openObj : StorageObject
  sealedObjs : List StorageObject
deriving DecidableEq

/-- Room-level lifecycle phase of the Recording State Machine. -/
inductive RoomPhase where
  | idle
  | recording
  | paused
deriving DecidableEq

/-- Observable lifecycle / per-frame outcome events, in emission order. -/
inductive Event where
  | sessionStarted (sid : Nat)
  | sessionFinal (sid : Nat) (status : SessStatus)
  | openedObj (oid : Nat)
  | sealedObj (oid : Nat)
  | frameStored (oid : Nat) (ts : Nat) (date : String) (degraded : Bool)
  | frameDuplicate (refTs : Nat)
  | frameRejectedQuota
  | frameRejectedState
  | invalidTransition (a : ControlAction)
deriving DecidableEq

/-- Modelled from the spec: the full per-room pipeline state — lifecycle
phase, all sessions (newest first), account quota, Duplicate Cache
contents, the Storage Writer state of the active session, sealed objects
of finished sessions, id counters, and the emitted event trace. -/
structure SysState where
  phase : RoomPhase
  sessions : List RecordingSession
  quota : Quota
  cache : List CacheEntry
  writer : Option WriterState
  archive : List StorageObject
  nextSid : Nat
  nextOid : Nat
  trace : List Event
deriving DecidableEq

/-- Initial state: Idle, no sessions, zero usage, empty cache. -/
def initState (cfg : Config) : SysState :=
  { phase := .idle
    sessions := []
    quota := { limit := cfg.quotaLimit, used := 0 }
    cache := []
    writer := none
    archive := []
    nextSid := 0
    nextOid := 0
    trace := [] }

/-- Append one event to the trace, leaving everything else unchanged. -/
def addEvent (st : SysState) (e : Event) : SysState :=
  { st with trace := st.trace ++ [e] }

/-- Update the current (head) session. -/
def updateHeadSession (f : RecordingSession → RecordingSession) :
    List RecordingSession → List RecordingSession
  | [] => []
  | s :: rest => f s :: rest

/-- A fresh, empty storage object opened at `env`. -/
def newObject (cfg : Config) (oid seq : Nat) (env : Env) : StorageObject :=
  { oid := oid
    room := cfg.room
    date := env.date
    seq := seq
    openedAt := env.time
    frames := []
    sizeBytes := 0
    frameCount := 0
    sealed := false }

/-- Seal an object: mark immutable; its size and frame count (maintained
incrementally) become final. -/
def sealObj (o : StorageObject) : StorageObject :=
  { o with sealed := true }

/-- Sid of the current (head) session, 0 if none. -/
def headSid (st : SysState) : Nat :=
  match st.sessions with
  | [] => 0
  | s :: _ => s.sid

/-- Modelled from the spec: the Recording State Machine's Control
transitions — `StartRecording` only from Idle (creates a session and a
storage object), `PauseRecording` only from Recording, `ResumeRecording`
only from Paused, `StopRecording` from Recording or Paused (seals the
open object, finalizes the session); anything else is an invalid
transition, rejected with the state unchanged. -/
def processControl (cfg : Config) (st : SysState) (a : ControlAction) (env : Env) :
    SysState :=
  match a, st.phase with
  | .startRecording, .idle =>
      let s : RecordingSession :=
        { sid := st.nextSid, startTime := env.time, endTime := none
          sizeBytes := 0, frameCount := 0, status := .recording }
      let o := newObject cfg st.nextOid 0 env
      { st with
        phase := .recording
        sessions := s :: st.sessions
        writer := some { openObj := o, sealedObjs := [] }
        nextSid := st.nextSid + 1
        nextOid := st.nextOid + 1
        trace := st.trace ++ [.sessionStarted s.sid, .openedObj o.oid] }
  | .pauseRecording, .recording =>
      { st with
        phase := .paused
        sessions := updateHeadSession (fun s => { s with status := .paused }) st.sessions }
  | .resumeRecording, .paused =>
      { st with
        phase := .recording
        sessions := updateHeadSession (fun s => { s with status := .recording }) st.sessions }
  | .stopRecording, .recording | .stopRecording, .paused =>
      match st.writer with
      | some w =>
          { st with
            phase := .idle
            sessions := updateHeadSession
              (fun s => { s with status := .stopped, endTime := some env.time }) st.sessions
            writer := none
            archive := sealObj w.openObj :: w.sealedObjs ++ st.archive
            trace := st.trace ++ [.sealedObj w.openObj.oid, .sessionFinal (headSid st) .stopped] }
      | none => addEvent st (.invalidTransition a)
  | _, _ => addEvent st (.invalidTransition a)

/-- Modelled from the spec: the Storage Writer accepting one admitted
unique frame — rolls to a fresh day/sequence object when the arrival date
differs from the open object's day or the size cap would be exceeded
(sealing the current object first, then opening the new one), and appends
the frame to the open object. -/
def storeFrame (cfg : Config) (st : SysState) (f : FrameMsg) (env : Env)
    (degraded : Bool) (w : WriterState) : SysState :=
  let size := f.payload.length
  let o := w.openObj
  let fr : StoredFrame := { ts := f.timestamp, date := env.date, size := size }
  let bumpSession := updateHeadSession
    (fun s => { s with sizeBytes := s.sizeBytes + size, frameCount := s.frameCount + 1 })
  if env.date ≠ o.date ∨ (cfg.sizeCap < o.sizeBytes + size ∧ 0 < o.frameCount) then
    let o1 := newObject cfg st.nextOid (if env.date = o.date then o.seq + 1 else 0) env
    let o2 := { o1 with frames := [fr], sizeBytes := size, frameCount := 1 }
    { st with
      writer := some { openObj := o2, sealedObjs := sealObj o :: w.sealedObjs }
      sessions := bumpSession st.sessions
      nextOid := st.nextOid + 1
      trace := st.trace ++ [.sealedObj o.oid, .openedObj o1.oid,
        .frameStored o1.oid f.timestamp env.date degraded] }
  else
    let o2 := { o with
      frames := o.frames ++ [fr]
      sizeBytes := o.sizeBytes + size
      frameCount := o.frameCount + 1 }
    { st with
      writer := some { w with openObj := o2 }
      sessions := bumpSession st.sessions
      trace := st.trace ++ [.frameStored o.oid f.timestamp env.date degraded] }

/-- Modelled from the spec: the admission path for one `Frame` message —
frames are rejected outright unless the room is Recording; the Quota
Guard then admits or rejects; admitted frames go through the Dedup
Engine: with the cache up, a matching in-window entry classifies the
frame Duplicate (a reference to the original's timestamp is emitted and
nothing is forwarded to storage), otherwise a new entry is inserted and
the frame is stored; with the cache down the engine fails open and the
frame is stored with the degradation flag set. -/
def processFrame (cfg : Config) (st : SysState) (f : FrameMsg) (env : Env) : SysState :=
  match st.phase, st.writer with
  | .recording, some w =>
      let size := f.payload.length
      let res := quotaAdmit st.quota size
      if res.1 then
        let st1 := { st with quota := res.2 }
        if env.cacheUp then
          match cacheLookup cfg env.time f.payload st1.cache with
          | some e => addEvent st1 (.frameDuplicate e.refTs)
          | none =>
              let st2 := { st1 with
                cache := { fingerprint := f.payload, refTs := f.timestamp
                           insertedAt := env.time } :: st1.cache }
              storeFrame cfg st2 f env false w
        else
          storeFrame cfg st1 f env true w
      else
        addEvent st .frameRejectedQuota
  | .recording, none => addEvent st .frameRejectedState
  | _, _ => addEvent st .frameRejectedState

/-- Session Gateway dispatch: Control messages go to the state machine,
Frame messages to the admission path, in arrival order. -/
def processMsg (cfg : Config) (st : SysState) : Msg → SysState
  | .control a env => processControl cfg st a env
  | .frame f env => processFrame cfg st f env

/-- Run a bounded inbound message sequence from the initial state. -/
def runMsgs (cfg : Config) (msgs : List Msg) : SysState :=
  msgs.foldl (processMsg cfg) (initState cfg)

/-- A session counts as active when it is Recording or Paused. -/
def isActive (s : RecordingSession) : Bool :=
  match s.status with
  | .recording => true
  | .paused => true
  | _ => false

/-- All storage objects held by the writer (open object first). -/
def writerObjs : Option WriterState → List StorageObject
  | none => []
  | some w => w.openObj :: w.sealedObjs

/-- All storage objects of the state: the active session's, then the
sealed objects of finished sessions. -/
def allObjs (st : SysState) : List StorageObject :=
  writerObjs st.writer ++ st.archive

/-! ## Helper lemmas about the Storage Writer step -/

theorem storeFrame_quota (cfg : Config) (st : SysState) (f : FrameMsg) (env : Env)
    (d : Bool) (w : WriterState) : (storeFrame cfg st f env d w).quota = st.quota := by
  simp only [storeFrame]
  split <;> rfl

theorem storeFrame_phase (cfg : Config) (st : SysState) (f : FrameMsg) (env : Env)
    (d : Bool) (w : WriterState) : (storeFrame cfg st f env d w).phase = st.phase := by
  simp only [storeFrame]
  split <;> rfl

theorem storeFrame_cache (cfg : Config) (st : SysState) (f : FrameMsg) (env : Env)
    (d : Bool) (w : WriterState) : (storeFrame cfg st f env d w).cache = st.cache := by
  simp only [storeFrame]
  split <;> rfl

theorem storeFrame_sessions (cfg : Config) (st : SysState) (f : FrameMsg) (env : Env)
    (d : Bool) (w : WriterState) :
    (storeFrame cfg st f env d w).sessions = updateHeadSession
      (fun s => { s with
                  sizeBytes := s.sizeBytes + f.payload.length
                  frameCount := s.frameCount + 1 }) st.sessions := by
  simp only [storeFrame]
  split <;> rfl

theorem storeFrame_writer (cfg : Config) (st : SysState) (f : FrameMsg) (env : Env)
    (d : Bool) (w : WriterState) :
    ∃ w', (storeFrame cfg st f env d w).writer = some w' := by
  simp only [storeFrame]
  split <;> exact ⟨_, rfl⟩

/-! ## Claim theorems: web client -/

/-- C8 counterexample: on a non-ok response whose parsed body has the
`error` field present with value `""`, `ApiClient.request`
(`src/examples/web-client/src/api.ts`) throws `"An error occurred"`, not
the (present) field value, because `data.error || "An error occurred"`
falls through on the falsy empty string. -/
theorem request_emptyError_counterexample :
    WebClientApi.request false (Js.obj [("error", Js.str "")])
      = .error (.error "An error occurred")
    ∧ hasField [("error", Js.str "")] "error" = true
    ∧ "An error occurred" ≠ "" := by
  refine ⟨rfl, rfl, by decide⟩

/-- C8 (amended): `ApiClient.request` in
`src/examples/web-client/src/api.ts` throws exactly when the response is
not ok; the thrown message is the body's `error` field when that field is
present and truthy (for a string: non-empty), and `"An error occurred"`
when it is absent or an empty string; on an ok response the parsed body
is returned unchanged. -/
theorem request_error_contract :
    ∀ (fields : List (String × Js)),
      WebClientApi.request true (Js.obj fields) = .ok (Js.obj fields)
      ∧ (∀ s, lookupField fields "error" = Js.str s → s ≠ "" →
          WebClientApi.request false (Js.obj fields) = .error (.error s))
      ∧ (lookupField fields "error" = Js.str "" ∨ lookupField fields "error" = Js.undefined →
          WebClientApi.request false (Js.obj fields) = .error (.error "An error occurred")) := by
  intro fields
  have hbase : WebClientApi.request false (Js.obj fields)
      = .error (.error (if (lookupField fields "error").truthy
          then (lookupField fields "error").asString else "An error occurred")) := rfl
  refine ⟨rfl, ?_, ?_⟩
  · intro s hs hne
    rw [hbase, hs]
    simp [Js.truthy, Js.asString, hne]
  · intro h
    rw [hbase]
    rcases h with h | h <;> rw [h] <;> rfl

theorem request_error_contract_witness :
    WebClientApi.request true (Js.obj [("error", Js.str "boom")])
      = .ok (Js.obj [("error", Js.str "boom")])
    ∧ WebClientApi.request false (Js.obj [("error", Js.str "boom")])
      = .error (.error "boom")
    ∧ WebClientApi.request false (Js.obj [("ok", Js.bool false)])
      = .error (.error "An error occurred") := by
  have h1 := request_error_contract [("error", Js.str "boom")]
  have h2 := request_error_contract [("ok", Js.bool false)]
  exact ⟨h1.1, h1.2.1 "boom" rfl (by decide), h2.2.2 (Or.inr rfl)⟩

/-- C9: after `RoomList.loadRooms` completes
(`src/examples/web-client/src/components/RoomList.tsx` lines 23-38),
every entry of the stored rooms state is a non-null room with truthy
(non-empty) `id` and `name`; when `listRooms` throws, the rooms state is
the empty list. -/
theorem roomList_valid :
    ∀ (res : Except String (List (Option Room))),
      (∀ o ∈ loadRooms res, ∃ r, o = some r ∧ r.id ≠ "" ∧ r.name ≠ "")
      ∧ ∀ (msg : String), loadRooms (.error msg) = [] := by
  intro res
  constructor
  · intro o ho
    cases res with
    | error m => simp [loadRooms] at ho
    | ok rooms =>
        simp only [loadRooms] at ho
        have hv := (List.mem_filter.mp ho).2
        cases o with
        | none => simp [validRoom] at hv
        | some r =>
            simp only [validRoom, Bool.and_eq_true, bne_iff_ne, ne_eq] at hv
            exact ⟨r, rfl, hv.1, hv.2⟩
  · intro msg
    rfl

theorem roomList_valid_witness :
    (∃ r, (some { id := "a", name := "b", maxParticipants := 1, recordingEnabled := true }
        : Option Room) = some r ∧ r.id ≠ "" ∧ r.name ≠ "")
    ∧ loadRooms (.error "network down") = [] := by
  have h := roomList_valid
    (.ok [some { id := "a", name := "b", maxParticipants := 1, recordingEnabled := true },
          none,
          some { id := "", name := "x", maxParticipants := 1, recordingEnabled := true }])
  exact ⟨h.1 _ (by decide), h.2 "network down"⟩

/-- C10 counterexample: the two `ApiClient.request` implementations are
not equivalent — for endpoint `/api/rooms` the web-client version attaches
`Authorization: Bearer k` while `part_003` attaches none; on an ok
response without a `data` field the web-client version returns the body
directly while `part_003` wraps it; on a non-ok `null` body the
web-client version raises a `TypeError` while `part_003` throws
`"An error occurred"`. -/
theorem requestImpls_not_equivalent :
    Part003Api.authHeader "k" "/api/rooms" = none
    ∧ WebClientApi.authHeader "k" "/api/rooms" = some ("Bearer " ++ "k")
    ∧ WebClientApi.request true (Js.obj [("x", Js.num 1)]) = .ok (Js.obj [("x", Js.num 1)])
    ∧ Part003Api.request true (Js.obj [("x", Js.num 1)])
        = .ok (Js.obj [("data", Js.obj [("x", Js.num 1)]), ("error", Js.undefined)])
    ∧ WebClientApi.request false Js.null = .error (.typeError "error")
    ∧ Part003Api.request false Js.null = .error (.error "An error occurred")
    ∧ ¬ requestImplsAgree := by
  refine ⟨by decide, rfl, rfl, rfl, rfl, rfl, ?_⟩
  rintro ⟨h1, -⟩
  have h := h1 "k" "/api/rooms"
  simp [WebClientApi.authHeader, Part003Api.authHeader] at h

/-- C10 (amended): the two `ApiClient.request` implementations agree on
the Authorization header exactly for the `/api/auth/credentials`
endpoint (both send `Bearer apiKey`); for every other endpoint the
web-client version sends `Bearer apiKey` and `part_003` sends none.  On
JSON-object response bodies they throw the same error for non-ok
responses, while for ok responses the web-client version returns the
parsed body directly and `part_003` returns it unchanged only when its
`data` field is truthy, wrapping it as `{data: body, error: undefined}`
otherwise. -/
theorem requestImpls_agreement :
    (∀ key, WebClientApi.authHeader key "/api/auth/credentials"
        = Part003Api.authHeader key "/api/auth/credentials")
    ∧ (∀ key ep, ep ≠ "/api/auth/credentials" →
        WebClientApi.authHeader key ep = some ("Bearer " ++ key)
        ∧ Part003Api.authHeader key ep = none)
    ∧ (∀ fields, WebClientApi.request false (Js.obj fields)
        = Part003Api.request false (Js.obj fields))
    ∧ (∀ fields, WebClientApi.request true (Js.obj fields) = .ok (Js.obj fields)
        ∧ Part003Api.request true (Js.obj fields)
          = (if (lookupField fields "data").truthy then .ok (Js.obj fields)
             else .ok (.obj [("data", Js.obj fields), ("error", Js.undefined)]))) := by
  refine ⟨?_, ?_, ?_, ?_⟩
  · intro key
    simp [WebClientApi.authHeader, Part003Api.authHeader]
  · intro key ep hne
    exact ⟨rfl, by simp [Part003Api.authHeader, hne]⟩
  · intro fields
    rfl
  · intro fields
    exact ⟨rfl, rfl⟩

theorem requestImpls_agreement_witness :
    WebClientApi.authHeader "k" "/api/rooms" = some ("Bearer " ++ "k")
    ∧ Part003Api.authHeader "k" "/api/rooms" = none := by
  exact requestImpls_agreement.2.1 "k" "/api/rooms" (by decide)

/-! ## Claim theorems: quota admission (C1) -/

/-- C1: on the admission path, a frame of size `payload.length` arriving
while Recording is admitted with usage incremented by exactly that size
when `usage + size <= limit`, and otherwise rejected with the whole state
unchanged except for the `frameRejectedQuota` outcome event. -/
theorem quotaGuard_admission (cfg : Config) (st : SysState) (f : FrameMsg) (env : Env)
    (w : WriterState) (hph : st.phase = .recording) (hw : st.writer = some w) :
    (st.quota.used + f.payload.length ≤ st.quota.limit →
      (processFrame cfg st f env).quota.used = st.quota.used + f.payload.length)
    ∧ (¬ st.quota.used + f.payload.length ≤ st.quota.limit →
      processFrame cfg st f env = addEvent st .frameRejectedQuota) := by
  obtain ⟨ph, ss, q, c, wr, ar, ns, no, tr⟩ := st
  simp only at hph hw
  subst hph
  subst hw
  constructor
  · intro hle
    cases hcu : env.cacheUp with
    | true =>
        cases hl : cacheLookup cfg env.time f.payload c with
        | some e => simp [processFrame, quotaAdmit, hle, hcu, hl, addEvent]
        | none => simp [processFrame, quotaAdmit, hle, hcu, hl, storeFrame_quota]
    | false =>
        simp [processFrame, quotaAdmit, hle, hcu, storeFrame_quota]
  · intro hle
    simp [processFrame, quotaAdmit, hle, addEvent]

/-- Witness constants for the pipeline claims: the spec's quota example
account (`limit = 1000`) with exact-match dedup. -/
def cfgW : Config :=
  { room := "room-1", quotaLimit := 1000, threshold := 1, window := 10000, sizeCap := 1000000 }

def envW (t : Nat) : Env :=
  { time := t, date := "2024-01-20", cacheUp := true }

/-- State after Start and one 900-byte frame: `used = 900`. -/
def stW : SysState :=
  runMsgs cfgW
    [.control .startRecording (envW 0),
     .frame { timestamp := 1, payload := List.replicate 900 7, kind := .video } (envW 1)]

def dummyObj : StorageObject :=
  { oid := 0, room := "", date := "", seq := 0, openedAt := 0, frames := []
    sizeBytes := 0, frameCount := 0, sealed := false }

def dummyWriter : WriterState :=
  { openObj := dummyObj, sealedObjs := [] }

theorem quotaGuard_admission_witness :
    stW.quota.used = 900
    ∧ (processFrame cfgW stW
        { timestamp := 2, payload := List.replicate 150 7, kind := .video }
        (envW 2)).quota.used = 900
    ∧ (processFrame cfgW stW
        { timestamp := 2, payload := List.replicate 50 7, kind := .video }
        (envW 2)).quota.used = 950 := by
  refine ⟨by decide, ?_, ?_⟩
  · have h := quotaGuard_admission cfgW stW
      { timestamp := 2, payload := List.replicate 150 7, kind := .video } (envW 2)
      (stW.writer.getD dummyWriter) (by decide) (by decide)
    have h2 := h.2 (by decide)
    rw [h2]
    decide
  · have h := quotaGuard_admission cfgW stW
      { timestamp := 2, payload := List.replicate 50 7, kind := .video } (envW 2)
      (stW.writer.getD dummyWriter) (by decide) (by decide)
    have h1 := h.1 (by decide)
    rw [h1]
    decide

/-! ## Claim theorems: state machine shapes (C3) -/

/-- C3: `PauseRecording` issued while Idle is rejected as an invalid
transition and the state stays Idle with no session; after
`StartRecording` then `PauseRecording` the session is Paused, and a
subsequent frame is rejected outright — the state is unchanged except
for the `frameRejectedState` event, so the frame is neither appended to
any storage object (all objects still empty) nor entered into the
duplicate cache (still empty). -/
theorem pausedFrameRejected :
    ∀ (cfg : Config) (e0 e1 e2 e3 : Env) (f : FrameMsg),
      processControl cfg (initState cfg) .pauseRecording e0
        = addEvent (initState cfg) (.invalidTransition .pauseRecording)
      ∧ (runMsgs cfg [.control .pauseRecording e0]).phase = .idle
      ∧ (runMsgs cfg [.control .pauseRecording e0]).sessions = []
      ∧ (let st2 := runMsgs cfg [.control .startRecording e1, .control .pauseRecording e2]
         processFrame cfg st2 f e3 = addEvent st2 .frameRejectedState
         ∧ st2.phase = .paused
         ∧ st2.cache = []
         ∧ (writerObjs st2.writer).map StorageObject.frames = [[]]) := by
  intro cfg e0 e1 e2 e3 f
  exact ⟨rfl, rfl, rfl, rfl, rfl, rfl, rfl⟩

/-! ## The single-active-session invariant (C2) -/

/-- Phase/session-list invariant of the Recording State Machine: when the
room is Idle no session is active; otherwise the newest session is the
unique active one and its status mirrors the phase. -/
structure PhaseInv (st : SysState) : Prop where
  idleAll : st.phase = .idle → ∀ s ∈ st.sessions, isActive s = false
  headActive : st.phase ≠ .idle →
    ∃ s rest, st.sessions = s :: rest
      ∧ (st.phase = .recording → s.status = .recording)
      ∧ (st.phase = .paused → s.status = .paused)
      ∧ ∀ t ∈ rest, isActive t = false

theorem phaseInv_addEvent (st : SysState) (e : Event) (h : PhaseInv st) :
    PhaseInv (addEvent st e) :=
  ⟨h.idleAll, h.headActive⟩

theorem phaseInv_init (cfg : Config) : PhaseInv (initState cfg) := by
  constructor
  · intro _ s hs
    simp [initState] at hs
  · intro hne
    exact absurd rfl hne

theorem phaseInv_step (cfg : Config) (st : SysState) (m : Msg) (h : PhaseInv st) :
    PhaseInv (processMsg cfg st m) := by
  obtain ⟨ph, ss, q, c, wr, ar, ns, no, tr⟩ := st
  cases m with
  | control a env =>
      cases a with
      | startRecording =>
          cases ph with
          | idle =>
              refine ⟨fun habs => RoomPhase.noConfusion habs, fun _ => ⟨_, ss, rfl, fun _ => rfl,
                fun habs => RoomPhase.noConfusion habs, ?_⟩⟩
              exact h.idleAll rfl
          | recording => exact phaseInv_addEvent _ _ h
          | paused => exact phaseInv_addEvent _ _ h
      | pauseRecording =>
          cases ph with
          | idle => exact phaseInv_addEvent _ _ h
          | recording =>
              obtain ⟨s, rest, hss, _, _, hrest⟩ := h.headActive (by simp)
              simp only at hss
              refine ⟨fun habs => RoomPhase.noConfusion habs, fun _ => ?_⟩
              rw [show ss = s :: rest from hss]
              exact ⟨_, rest, rfl, fun habs => RoomPhase.noConfusion habs, fun _ => rfl, hrest⟩
          | paused => exact phaseInv_addEvent _ _ h
      | resumeRecording =>
          cases ph with
          | idle => exact phaseInv_addEvent _ _ h
          | recording => exact phaseInv_addEvent _ _ h
          | paused =>
              obtain ⟨s, rest, hss, _, _, hrest⟩ := h.headActive (by simp)
              simp only at hss
              refine ⟨fun habs => RoomPhase.noConfusion habs, fun _ => ?_⟩
              rw [show ss = s :: rest from hss]
              exact ⟨_, rest, rfl, fun _ => rfl, fun habs => RoomPhase.noConfusion habs, hrest⟩
      | stopRecording =>
          cases ph with
          | idle => exact phaseInv_addEvent _ _ h
          | recording =>
              cases wr with
              | none => exact phaseInv_addEvent _ _ h
              | some w =>
                  obtain ⟨s, rest, hss, _, _, hrest⟩ := h.headActive (by simp)
                  simp only at hss
                  refine ⟨fun _ => ?_, fun habs => absurd rfl habs⟩
                  rw [show ss = s :: rest from hss]
                  intro t ht
                  rcases List.mem_cons.mp ht with hh | hh
                  · rw [hh]; rfl
                  · exact hrest t hh
          | paused =>
              cases wr with
              | none => exact phaseInv_addEvent _ _ h
              | some w =>
                  obtain ⟨s, rest, hss, _, _, hrest⟩ := h.headActive (by simp)
                  simp only at hss
                  refine ⟨fun _ => ?_, fun habs => absurd rfl habs⟩
                  rw [show ss = s :: rest from hss]
                  intro t ht
                  rcases List.mem_cons.mp ht with hh | hh
                  · rw [hh]; rfl
                  · exact hrest t hh
  | frame f env =>
      cases ph with
      | idle => exact phaseInv_addEvent _ _ h
      | paused => exact phaseInv_addEvent _ _ h
      | recording =>
          cases wr with
          | none => exact phaseInv_addEvent _ _ h
          | some w =>
              obtain ⟨s, rest, hss, hrec, _, hrest⟩ := h.headActive (by simp)
              simp only at hss
              by_cases hq : q.used + f.payload.length ≤ q.limit
              · simp only [processMsg, processFrame, quotaAdmit, hq, if_true]
                by_cases hcu : env.cacheUp
                · simp only [hcu, if_true]
                  cases hl : cacheLookup cfg env.time f.payload c with
                  | some e =>
                      refine ⟨fun habs => RoomPhase.noConfusion habs, fun _ => ?_⟩
                      rw [show ss = s :: rest from hss]
                      exact ⟨s, rest, rfl, fun _ => hrec rfl, fun habs => RoomPhase.noConfusion habs, hrest⟩
                  | none =>
                      constructor
                      · intro habs
                        rw [storeFrame_phase] at habs
                        exact RoomPhase.noConfusion habs
                      · intro _
                        rw [storeFrame_sessions]
                        rw [show ss = s :: rest from hss]
                        refine ⟨_, rest, rfl, fun _ => hrec rfl, fun habs => ?_, hrest⟩
                        rw [storeFrame_phase] at habs
                        exact RoomPhase.noConfusion habs
                · simp only [hcu, Bool.false_eq_true, if_false]
                  constructor
                  · intro habs
                    rw [storeFrame_phase] at habs
                    exact RoomPhase.noConfusion habs
                  · intro _
                    rw [storeFrame_sessions]
                    rw [show ss = s :: rest from hss]
                    refine ⟨_, rest, rfl, fun _ => hrec rfl, fun habs => ?_, hrest⟩
                    rw [storeFrame_phase] at habs
                    exact RoomPhase.noConfusion habs
              · simp only [processMsg, processFrame, quotaAdmit, hq, if_false]
                exact phaseInv_addEvent _ _ h

theorem phaseInv_run (cfg : Config) (msgs : List Msg) : PhaseInv (runMsgs cfg msgs) := by
  suffices h : ∀ st, PhaseInv st → PhaseInv (msgs.foldl (processMsg cfg) st) from
    h _ (phaseInv_init cfg)
  induction msgs with
  | nil => exact fun st h => h
  | cons m ms ih => exact fun st h => ih _ (phaseInv_step cfg st m h)

/-- A `StartRecording` issued while not Idle is an invalid transition. -/
theorem processControl_start_nonIdle (cfg : Config) (st : SysState) (env : Env)
    (h : st.phase ≠ .idle) :
    processControl cfg st .startRecording env
      = addEvent st (.invalidTransition .startRecording) := by
  obtain ⟨ph, ss, q, c, wr, ar, ns, no, tr⟩ := st
  cases ph with
  | idle => exact absurd rfl h
  | recording => rfl
  | paused => rfl

/-- C2: in every reachable state at most one RecordingSession of the room
is Recording or Paused, and while one such session exists a further
`StartRecording` is rejected as an invalid transition with the state
otherwise unchanged (no second session is created). -/
theorem singleActiveSession (cfg : Config) (msgs : List Msg) :
    ((runMsgs cfg msgs).sessions.countP (fun s => isActive s)) ≤ 1
    ∧ ((∃ s ∈ (runMsgs cfg msgs).sessions, isActive s = true) → ∀ env,
        processControl cfg (runMsgs cfg msgs) .startRecording env
          = addEvent (runMsgs cfg msgs) (.invalidTransition .startRecording)) := by
  have hinv := phaseInv_run cfg msgs
  constructor
  · by_cases hph : (runMsgs cfg msgs).phase = .idle
    · have h := hinv.idleAll hph
      have hz : (runMsgs cfg msgs).sessions.countP (fun s => isActive s) = 0 := by
        rw [List.countP_eq_zero]
        intro a ha
        simp [h a ha]
      omega
    · obtain ⟨s, rest, hss, -, -, hrest⟩ := hinv.headActive hph
      rw [hss, List.countP_cons]
      have h0 : rest.countP (fun s => isActive s) = 0 := by
        rw [List.countP_eq_zero]
        intro a ha
        simp [hrest a ha]
      rw [h0]
      cases hA : isActive s <;> simp [hA]
  · rintro ⟨s, hs, hact⟩ env
    apply processControl_start_nonIdle
    intro hidle
    have := hinv.idleAll hidle s hs
    rw [hact] at this
    cases this

theorem singleActiveSession_witness :
    ((runMsgs cfgW [.control .startRecording (envW 0)]).sessions.countP
      (fun s => isActive s)) ≤ 1
    ∧ processControl cfgW (runMsgs cfgW [.control .startRecording (envW 0)])
        .startRecording (envW 5)
      = addEvent (runMsgs cfgW [.control .startRecording (envW 0)])
        (.invalidTransition .startRecording) := by
  have h := singleActiveSession cfgW [.control .startRecording (envW 0)]
  exact ⟨h.1, h.2 (by decide) (envW 5)⟩

/-! ## Characterization of the admission path -/

/-- An admitted frame whose lookup hits an in-window entry is classified
Duplicate: only the quota usage and the reference event change — nothing
is forwarded to the Storage Writer and the cache is untouched. -/
theorem processFrame_dup (cfg : Config) (st : SysState) (f : FrameMsg) (env : Env)
    (w : WriterState) (e : CacheEntry)
    (hph : st.phase = .recording) (hw : st.writer = some w)
    (hq : st.quota.used + f.payload.length ≤ st.quota.limit)
    (hcu : env.cacheUp = true)
    (he : cacheLookup cfg env.time f.payload st.cache = some e) :
    processFrame cfg st f env = { st with
      quota := { limit := st.quota.limit, used := st.quota.used + f.payload.length }
      trace := st.trace ++ [.frameDuplicate e.refTs] } := by
  obtain ⟨ph, ss, q, c, wr, ar, ns, no, tr⟩ := st
  simp only at hph hw hq he
  subst hph
  subst hw
  simp only [processFrame, quotaAdmit, hq, if_true, hcu, he, addEvent]

/-- An admitted frame whose lookup misses is classified Unique: a fresh
`DedupEntry` is inserted and the frame goes to the Storage Writer with
the degradation flag clear. -/
theorem processFrame_uniq (cfg : Config) (st : SysState) (f : FrameMsg) (env : Env)
    (w : WriterState)
    (hph : st.phase = .recording) (hw : st.writer = some w)
    (hq : st.quota.used + f.payload.length ≤ st.quota.limit)
    (hcu : env.cacheUp = true)
    (he : cacheLookup cfg env.time f.payload st.cache = none) :
    processFrame cfg st f env = storeFrame cfg
      { st with
        quota := { limit := st.quota.limit, used := st.quota.used + f.payload.length }
        cache := { fingerprint := f.payload, refTs := f.timestamp
                   insertedAt := env.time } :: st.cache }
      f env false w := by
  obtain ⟨ph, ss, q, c, wr, ar, ns, no, tr⟩ := st
  simp only at hph hw hq he
  subst hph
  subst hw
  simp only [processFrame, quotaAdmit, hq, if_true, hcu, he]

/-- With the Duplicate Cache down, an admitted frame bypasses the cache
entirely and goes to the Storage Writer with the degradation flag set. -/
theorem processFrame_down (cfg : Config) (st : SysState) (f : FrameMsg) (env : Env)
    (w : WriterState)
    (hph : st.phase = .recording) (hw : st.writer = some w)
    (hq : st.quota.used + f.payload.length ≤ st.quota.limit)
    (hcu : env.cacheUp = false) :
    processFrame cfg st f env = storeFrame cfg
      { st with
        quota := { limit := st.quota.limit, used := st.quota.used + f.payload.length } }
      f env true w := by
  obtain ⟨ph, ss, q, c, wr, ar, ns, no, tr⟩ := st
  simp only at hph hw hq
  subst hph
  subst hw
  simp only [processFrame, quotaAdmit, hq, if_true, hcu, Bool.false_eq_true, if_false]

/-- The last element of a list extended by three elements. -/
theorem getLast?_append3 {α : Type} (l : List α) (a b c : α) :
    (l ++ [a, b, c]).getLast? = some c := by
  rw [show l ++ [a, b, c] = (l ++ [a, b]) ++ [c] by simp]
  exact List.getLast?_concat _

/-- The frame appended by the Storage Writer is the last frame of the
open object, and the last trace event reports it stored. -/
theorem storeFrame_appends (cfg : Config) (st : SysState) (f : FrameMsg) (env : Env)
    (d : Bool) (w : WriterState) :
    (∃ w', (storeFrame cfg st f env d w).writer = some w'
      ∧ w'.openObj.frames.getLast? = some
          { ts := f.timestamp, date := env.date, size := f.payload.length })
    ∧ ∃ oid, (storeFrame cfg st f env d w).trace.getLast? = some
        (.frameStored oid f.timestamp env.date d) := by
  simp only [storeFrame]
  split
  · constructor
    · exact ⟨_, rfl, rfl⟩
    · exact ⟨_, getLast?_append3 _ _ _ _⟩
  · constructor
    · exact ⟨_, rfl, List.getLast?_concat _⟩
    · exact ⟨w.openObj.oid, List.getLast?_concat _⟩

/-! ## Claim theorems: dedup idempotence (C4) -/

/-- C4: with exact-match dedup (`threshold = 1`) and the cache up, a
payload submitted while Recording and then submitted again within the
recency window is classified Duplicate the second time: the first
submission inserts a `DedupEntry`, and the second changes nothing but the
quota usage and a `frameDuplicate` event referencing the first
submission's timestamp — it is not forwarded to the Storage Writer and
the cache is unchanged. -/
theorem dedup_idempotent (cfg : Config) (st : SysState) (f1 f2 : FrameMsg) (e1 e2 : Env)
    (w : WriterState)
    (hthr : cfg.threshold = 1)
    (hph : st.phase = .recording) (hw : st.writer = some w)
    (hc1 : e1.cacheUp = true) (hc2 : e2.cacheUp = true)
    (hpay : f2.payload = f1.payload)
    (hq1 : st.quota.used + f1.payload.length ≤ st.quota.limit)
    (hq2 : st.quota.used + f1.payload.length + f2.payload.length ≤ st.quota.limit)
    (hmiss : cacheLookup cfg e1.time f1.payload st.cache = none)
    (hwin : e2.time - e1.time ≤ cfg.window) :
    (processFrame cfg st f1 e1).cache
      = { fingerprint := f1.payload, refTs := f1.timestamp
          insertedAt := e1.time } :: st.cache
    ∧ processFrame cfg (processFrame cfg st f1 e1) f2 e2
      = { processFrame cfg st f1 e1 with
          quota := { limit := (processFrame cfg st f1 e1).quota.limit
                     used := (processFrame cfg st f1 e1).quota.used + f2.payload.length }
          trace := (processFrame cfg st f1 e1).trace ++ [.frameDuplicate f1.timestamp] } := by
  have h1 : processFrame cfg st f1 e1 = storeFrame cfg
      { st with
        quota := { limit := st.quota.limit, used := st.quota.used + f1.payload.length }
        cache := { fingerprint := f1.payload, refTs := f1.timestamp
                   insertedAt := e1.time } :: st.cache }
      f1 e1 false w :=
    processFrame_uniq cfg st f1 e1 w hph hw hq1 hc1 hmiss
  have hcache : (processFrame cfg st f1 e1).cache
      = { fingerprint := f1.payload, refTs := f1.timestamp
          insertedAt := e1.time } :: st.cache := by
    rw [h1, storeFrame_cache]
  refine ⟨hcache, ?_⟩
  have hph1 : (processFrame cfg st f1 e1).phase = .recording := by
    rw [h1, storeFrame_phase, hph]
  obtain ⟨w1, hw1⟩ : ∃ w', (processFrame cfg st f1 e1).writer = some w' := by
    rw [h1]
    exact storeFrame_writer _ _ _ _ _ _
  have hquota1 : (processFrame cfg st f1 e1).quota
      = { limit := st.quota.limit, used := st.quota.used + f1.payload.length } := by
    rw [h1, storeFrame_quota]
  have hq2' : (processFrame cfg st f1 e1).quota.used + f2.payload.length
      ≤ (processFrame cfg st f1 e1).quota.limit := by
    rw [hquota1]
    exact hq2
  have hmatch : entryMatches cfg e2.time f2.payload
      { fingerprint := f1.payload, refTs := f1.timestamp, insertedAt := e1.time } = true := by
    simp [entryMatches, fpDistance, hpay, hthr, hwin]
  have hhit : cacheLookup cfg e2.time f2.payload (processFrame cfg st f1 e1).cache
      = some { fingerprint := f1.payload, refTs := f1.timestamp, insertedAt := e1.time } := by
    rw [hcache]
    simp only [cacheLookup, List.find?_cons, hmatch]
  exact processFrame_dup cfg (processFrame cfg st f1 e1) f2 e2 w1 _ hph1 hw1 hq2' hc2 hhit

theorem dedup_idempotent_witness :
    ((processFrame cfgW (processFrame cfgW
        (runMsgs cfgW [.control .startRecording (envW 0)])
        { timestamp := 10, payload := [3, 1, 4], kind := .video } (envW 1))
        { timestamp := 20, payload := [3, 1, 4], kind := .video } (envW 2)).trace.getLast?
      = some (.frameDuplicate 10))
    ∧ ((processFrame cfgW (processFrame cfgW
        (runMsgs cfgW [.control .startRecording (envW 0)])
        { timestamp := 10, payload := [3, 1, 4], kind := .video } (envW 1))
        { timestamp := 20, payload := [3, 1, 4], kind := .video } (envW 2)).writer
      = (processFrame cfgW
        (runMsgs cfgW [.control .startRecording (envW 0)])
        { timestamp := 10, payload := [3, 1, 4], kind := .video } (envW 1)).writer) := by
  have h := dedup_idempotent cfgW (runMsgs cfgW [.control .startRecording (envW 0)])
    { timestamp := 10, payload := [3, 1, 4], kind := .video }
    { timestamp := 20, payload := [3, 1, 4], kind := .video }
    (envW 1) (envW 2)
    ((runMsgs cfgW [.control .startRecording (envW 0)]).writer.getD dummyWriter)
    (by decide) (by decide) (by decide) (by decide) (by decide) (by decide)
    (by decide) (by decide) (by decide) (by decide)
  rw [h.2]
  constructor
  · exact List.getLast?_concat _
  · rfl

/-! ## Claim theorems: fail-open on cache outage (C5) -/

/-- C5: with the Duplicate Cache unavailable, an admitted frame is always
classified Unique and forwarded to storage — whatever the cache contains,
so in particular even when an identical payload was stored before — with
the degradation flag set on its `frameStored` outcome event, and the
cache is not touched. -/
theorem dedup_failOpen (cfg : Config) (st : SysState) (f : FrameMsg) (env : Env)
    (w : WriterState)
    (hph : st.phase = .recording) (hw : st.writer = some w)
    (hc : env.cacheUp = false)
    (hq : st.quota.used + f.payload.length ≤ st.quota.limit) :
    (processFrame cfg st f env).cache = st.cache
    ∧ (∃ w', (processFrame cfg st f env).writer = some w'
        ∧ w'.openObj.frames.getLast? = some
            { ts := f.timestamp, date := env.date, size := f.payload.length })
    ∧ ∃ oid, (processFrame cfg st f env).trace.getLast? = some
        (.frameStored oid f.timestamp env.date true) := by
  have h1 := processFrame_down cfg st f env w hph hw hq hc
  rw [h1]
  refine ⟨?_, storeFrame_appends cfg _ f env true w⟩
  rw [storeFrame_cache]

theorem dedup_failOpen_witness :
    ((processFrame cfgW (processFrame cfgW
        (runMsgs cfgW [.control .startRecording (envW 0)])
        { timestamp := 10, payload := [3, 1, 4], kind := .video } (envW 1))
        { timestamp := 20, payload := [3, 1, 4], kind := .video }
        { time := 2, date := "2024-01-20", cacheUp := false }).cache
      = [{ fingerprint := [3, 1, 4], refTs := 10, insertedAt := 1 }])
    ∧ (∃ w', (processFrame cfgW (processFrame cfgW
        (runMsgs cfgW [.control .startRecording (envW 0)])
        { timestamp := 10, payload := [3, 1, 4], kind := .video } (envW 1))
        { timestamp := 20, payload := [3, 1, 4], kind := .video }
        { time := 2, date := "2024-01-20", cacheUp := false }).writer = some w'
        ∧ w'.openObj.frames.getLast? = some { ts := 20, date := "2024-01-20", size := 3 })
    ∧ ∃ oid, (processFrame cfgW (processFrame cfgW
        (runMsgs cfgW [.control .startRecording (envW 0)])
        { timestamp := 10, payload := [3, 1, 4], kind := .video } (envW 1))
        { timestamp := 20, payload := [3, 1, 4], kind := .video }
        { time := 2, date := "2024-01-20", cacheUp := false }).trace.getLast?
      = some (.frameStored oid 20 "2024-01-20" true) := by
  have h := dedup_failOpen cfgW (processFrame cfgW
      (runMsgs cfgW [.control .startRecording (envW 0)])
      { timestamp := 10, payload := [3, 1, 4], kind := .video } (envW 1))
    { timestamp := 20, payload := [3, 1, 4], kind := .video }
    { time := 2, date := "2024-01-20", cacheUp := false }
    ((processFrame cfgW
      (runMsgs cfgW [.control .startRecording (envW 0)])
      { timestamp := 10, payload := [3, 1, 4], kind := .video } (envW 1)).writer.getD
        dummyWriter)
    (by decide) (by decide) (by decide) (by decide)
  refine ⟨?_, h.2⟩
  rw [h.1]
  decide

/-! ## Trace predicates for the Storage Writer invariants (C6, C7) -/

/-- Event `e` occurs somewhere in the trace. -/
def EvIn (tr : List Event) (e : Event) : Prop :=
  ∃ i, tr.get? i = some e

/-- Object `a` was sealed at a trace position strictly before object `b`
was opened. -/
def SealedBeforeOpened (tr : List Event) (a b : Nat) : Prop :=
  ∃ i j, i < j ∧ tr.get? i = some (.sealedObj a) ∧ tr.get? j = some (.openedObj b)

/-- The object ids of `frameStored` events never decrease along the
trace: frames are appended to objects in the order the objects are
opened. -/
def StoredMono (tr : List Event) : Prop :=
  ∀ i j oid1 oid2 ts1 ts2 d1 d2 g1 g2, i < j →
    tr.get? i = some (.frameStored oid1 ts1 d1 g1) →
    tr.get? j = some (.frameStored oid2 ts2 d2 g2) →
    oid1 ≤ oid2

theorem get?_some_lt {α : Type} {l : List α} {i : Nat} {x : α}
    (h : l.get? i = some x) : i < l.length := by
  by_contra hge
  rw [List.get?_eq_none.mpr (le_of_not_lt hge)] at h
  cases h

theorem evIn_append (tr new : List Event) (e : Event) (h : EvIn tr e) :
    EvIn (tr ++ new) e := by
  obtain ⟨i, hi⟩ := h
  exact ⟨i, by rw [List.get?_append (get?_some_lt hi)]; exact hi⟩

theorem evIn_new (tr new : List Event) (e : Event) (h : e ∈ new) :
    EvIn (tr ++ new) e := by
  obtain ⟨k, hk⟩ := List.mem_iff_get?.mp h
  refine ⟨tr.length + k, ?_⟩
  rw [List.get?_append_right (Nat.le_add_right _ _)]
  simpa using hk

theorem sbo_append (tr new : List Event) (a b : Nat)
    (h : SealedBeforeOpened tr a b) : SealedBeforeOpened (tr ++ new) a b := by
  obtain ⟨i, j, hij, hi, hj⟩ := h
  exact ⟨i, j, hij, by rw [List.get?_append (get?_some_lt hi)]; exact hi,
    by rw [List.get?_append (get?_some_lt hj)]; exact hj⟩

theorem sbo_extend (tr new : List Event) (a b : Nat)
    (hseal : EvIn tr (.sealedObj a)) (hopen : Event.openedObj b ∈ new) :
    SealedBeforeOpened (tr ++ new) a b := by
  obtain ⟨i, hi⟩ := hseal
  obtain ⟨k, hk⟩ := List.mem_iff_get?.mp hopen
  refine ⟨i, tr.length + k, ?_, ?_, ?_⟩
  · have := get?_some_lt hi
    omega
  · rw [List.get?_append (get?_some_lt hi)]
    exact hi
  · rw [List.get?_append_right (Nat.le_add_right _ _)]
    simpa using hk

theorem sbo_here (tr : List Event) (a b : Nat) (rest : List Event) :
    SealedBeforeOpened (tr ++ Event.sealedObj a :: Event.openedObj b :: rest) a b := by
  refine ⟨tr.length, tr.length + 1, by omega, ?_, ?_⟩
  · rw [List.get?_append_right (le_refl _)]
    simp
  · rw [List.get?_append_right (by omega)]
    simp

theorem get?_append_cases {α : Type} (tr new : List α) (i : Nat) (x : α)
    (h : (tr ++ new).get? i = some x) :
    (i < tr.length ∧ tr.get? i = some x)
      ∨ (tr.length ≤ i ∧ new.get? (i - tr.length) = some x) := by
  by_cases hlt : i < tr.length
  · rw [List.get?_append hlt] at h
    exact Or.inl ⟨hlt, h⟩
  · rw [List.get?_append_right (le_of_not_lt hlt)] at h
    exact Or.inr ⟨le_of_not_lt hlt, h⟩

theorem storedMono_append (tr new : List Event)
    (hold : StoredMono tr) (hnew : StoredMono new)
    (hcross : ∀ i oid1 ts1 d1 g1, tr.get? i = some (.frameStored oid1 ts1 d1 g1) →
      ∀ j oid2 ts2 d2 g2, new.get? j = some (.frameStored oid2 ts2 d2 g2) →
      oid1 ≤ oid2) :
    StoredMono (tr ++ new) := by
  intro i j oid1 oid2 ts1 ts2 d1 d2 g1 g2 hij hi hj
  rcases get?_append_cases tr new i _ hi with ⟨hi1, hi2⟩ | ⟨hi1, hi2⟩
  · rcases get?_append_cases tr new j _ hj with ⟨hj1, hj2⟩ | ⟨hj1, hj2⟩
    · exact hold i j _ _ _ _ _ _ _ _ hij hi2 hj2
    · exact hcross i _ _ _ _ hi2 _ _ _ _ _ hj2
  · rcases get?_append_cases tr new j _ hj with ⟨hj1, hj2⟩ | ⟨hj1, hj2⟩
    · omega
    · exact hnew (i - tr.length) (j - tr.length) _ _ _ _ _ _ _ _ (by omega) hi2 hj2

/-- A trace whose `frameStored` events all carry one object id is
trivially monotone. -/
theorem storedMono_const (l : List Event) (x : Nat)
    (h : ∀ k oid ts d g, l.get? k = some (.frameStored oid ts d g) → oid = x) :
    StoredMono l := by
  intro i j oid1 oid2 ts1 ts2 d1 d2 g1 g2 _ hi hj
  rw [h i _ _ _ _ hi, h j _ _ _ _ hj]

/-- In a strictly-decreasing-oid list, the oid determines the object. -/
theorem pairwise_oid_unique : ∀ (l : List StorageObject),
    l.Pairwise (fun a b => b.oid < a.oid) →
    ∀ a ∈ l, ∀ b ∈ l, a.oid = b.oid → a = b := by
  intro l
  induction l with
  | nil => intro _ a ha; exact absurd ha (List.not_mem_nil a)
  | cons x xs ih =>
      intro h a ha b hb heq
      rw [List.pairwise_cons] at h
      rcases List.mem_cons.mp ha with rfl | ha'
      · rcases List.mem_cons.mp hb with rfl | hb'
        · rfl
        · exact absurd heq (by have := h.1 b hb'; omega)
      · rcases List.mem_cons.mp hb with rfl | hb'
        · exact absurd heq (by have := h.1 a ha'; omega)
        · exact ih h.2 a ha' b hb' heq

/-! ## The Storage Writer invariant -/

/-- Modelled from the spec: the Storage Writer invariant over reachable
states — every object holds only frames of its own calendar date and
belongs to the configured room, object ids strictly decrease along
`allObjs` (newest first) and stay below the id counter, the open object
is unsealed while all sealed objects carry finalized size and frame
counts, every `frameStored` event refers to an existing object of the
same date, stored oids are monotone along the trace and bounded by the
open object's oid, every sealed object has a `sealedObj` event, and any
lower-oid object was sealed strictly before any higher-oid object was
opened. -/
structure WriterInv (cfg : Config) (st : SysState) : Prop where
  idleWriter : st.phase = .idle → st.writer = none
  dates : ∀ o ∈ allObjs st, ∀ fr ∈ o.frames, fr.date = o.date
  roomEq : ∀ o ∈ allObjs st, o.room = cfg.room
  oidLt : ∀ o ∈ allObjs st, o.oid < st.nextOid
  oidSorted : (allObjs st).Pairwise (fun a b => b.oid < a.oid)
  openFresh : ∀ w, st.writer = some w → w.openObj.sealed = false
  sealedAll : ∀ w, st.writer = some w → ∀ s ∈ w.sealedObjs, s.sealed = true
  archSealed : ∀ o ∈ st.archive, o.sealed = true
  counts : ∀ o ∈ allObjs st, o.frameCount = o.frames.length
    ∧ o.sizeBytes = (o.frames.map StoredFrame.size).sum
  storedObj : ∀ i oid ts d g, st.trace.get? i = some (.frameStored oid ts d g) →
    ∃ o ∈ allObjs st, o.oid = oid ∧ o.date = d
  storedMono : StoredMono st.trace
  storedBound : ∀ i oid ts d g, st.trace.get? i = some (.frameStored oid ts d g) →
    oid < st.nextOid ∧ ∀ w, st.writer = some w → oid ≤ w.openObj.oid
  sealedEvt : ∀ o ∈ allObjs st, o.sealed = true → EvIn st.trace (.sealedObj o.oid)
  ordered : ∀ o1 ∈ allObjs st, ∀ o2 ∈ allObjs st, o1.oid < o2.oid →
    SealedBeforeOpened st.trace o1.oid o2.oid

theorem writerInv_init (cfg : Config) : WriterInv cfg (initState cfg) := by
  refine ⟨fun _ => rfl, ?_, ?_, ?_, ?_, ?_, ?_, ?_, ?_, ?_, ?_, ?_, ?_, ?_⟩
  · intro o ho
    simp [initState, allObjs, writerObjs] at ho
  · intro o ho
    simp [initState, allObjs, writerObjs] at ho
  · intro o ho
    simp [initState, allObjs, writerObjs] at ho
  · simp [initState, allObjs, writerObjs]
  · exact fun w hw => Option.noConfusion hw
  · exact fun w hw => Option.noConfusion hw
  · intro o ho
    simp [initState] at ho
  · intro o ho
    simp [initState, allObjs, writerObjs] at ho
  · intro i oid ts d g hi
    simp [initState] at hi
  · intro i j oid1 oid2 ts1 ts2 d1 d2 g1 g2 _ hi
    simp [initState] at hi
  · intro i oid ts d g hi
    simp [initState] at hi
  · intro o ho
    simp [initState, allObjs, writerObjs] at ho
  · intro o1 h1
    simp [initState, allObjs, writerObjs] at h1

/-- Appending one non-`frameStored` event preserves the Storage Writer
invariant. -/
theorem writerInv_addEvent (cfg : Config) (st : SysState) (e : Event)
    (hne : ∀ oid ts d g, e ≠ .frameStored oid ts d g)
    (h : WriterInv cfg st) : WriterInv cfg (addEvent st e) := by
  have hstored : ∀ k oid ts d g, ([e] : List Event).get? k
      = some (.frameStored oid ts d g) → False := by
    intro k oid ts d g hk
    have hm := List.get?_mem hk
    rw [List.mem_singleton] at hm
    exact hne oid ts d g hm.symm
  refine ⟨h.idleWriter, h.dates, h.roomEq, h.oidLt, h.oidSorted, h.openFresh,
    h.sealedAll, h.archSealed, h.counts, ?_, ?_, ?_, ?_, ?_⟩
  · intro i oid ts d g hi
    rcases get?_append_cases st.trace [e] i _ hi with ⟨_, h2⟩ | ⟨_, h2⟩
    · exact h.storedObj i _ _ _ _ h2
    · exact absurd h2 (fun h2 => hstored _ _ _ _ _ h2)
  · exact storedMono_append _ _ h.storedMono
      (storedMono_const _ 0 (fun k oid ts d g hk => absurd hk
        (fun hk => hstored _ _ _ _ _ hk)))
      (fun i oid1 ts1 d1 g1 _ j oid2 ts2 d2 g2 hj =>
        absurd hj (fun hj => hstored _ _ _ _ _ hj))
  · intro i oid ts d g hi
    rcases get?_append_cases st.trace [e] i _ hi with ⟨_, h2⟩ | ⟨_, h2⟩
    · exact h.storedBound i _ _ _ _ h2
    · exact absurd h2 (fun h2 => hstored _ _ _ _ _ h2)
  · intro o ho hs
    exact evIn_append _ _ _ (h.sealedEvt o ho hs)
  · intro o1 h1 o2 h2 hlt
    exact sbo_append _ _ _ _ (h.ordered o1 h1 o2 h2 hlt)

/-- The writer step `storeFrame` preserves the Storage Writer invariant: on rollover the
current object is sealed (finalized) before the fresh object is opened,
and the stored frame lands in the object of its own arrival date. -/
theorem writerInv_storeFrame (cfg : Config) (st : SysState) (f : FrameMsg) (env : Env)
    (d : Bool) (w : WriterState)
    (hph : st.phase = .recording) (hw : st.writer = some w)
    (h : WriterInv cfg st) : WriterInv cfg (storeFrame cfg st f env d w) := by
  have hOld : allObjs st = w.openObj :: (w.sealedObjs ++ st.archive) := by
    simp [allObjs, writerObjs, hw]
  have hOldMem : ∀ x : StorageObject,
      (x = w.openObj ∨ x ∈ w.sealedObjs ∨ x ∈ st.archive) → x ∈ allObjs st := by
    intro x hx
    rw [hOld]
    simp only [List.mem_cons, List.mem_append]
    tauto
  have hOpenLt : w.openObj.oid < st.nextOid := h.oidLt _ (hOldMem _ (Or.inl rfl))
  have hTailLt : ∀ x, x ∈ w.sealedObjs ∨ x ∈ st.archive → x.oid < w.openObj.oid := by
    intro x hx
    have hp := h.oidSorted
    rw [hOld, List.pairwise_cons] at hp
    exact hp.1 x (by simp only [List.mem_append]; tauto)
  have hSealedTail : ∀ x, x ∈ w.sealedObjs ∨ x ∈ st.archive → x.sealed = true := by
    intro x hx
    rcases hx with hx | hx
    · exact h.sealedAll w hw x hx
    · exact h.archSealed x hx
  simp only [storeFrame]
  split
  case isTrue hcond =>
    refine ⟨?_, ?_, ?_, ?_, ?_, ?_, ?_, ?_, ?_, ?_, ?_, ?_, ?_, ?_⟩
    · intro habs
      rw [hph] at habs
      exact RoomPhase.noConfusion habs
    · -- dates
      intro o ho fr hfr
      simp only [allObjs, writerObjs, List.mem_cons, List.mem_append, or_assoc] at ho
      rcases ho with rfl | rfl | ho | ho
      · simp only [newObject] at hfr ⊢
        rw [List.mem_singleton] at hfr
        rw [hfr]
      · exact h.dates w.openObj (hOldMem w.openObj (Or.inl rfl)) fr hfr
      · exact h.dates _ (hOldMem _ (Or.inr (Or.inl ho))) fr hfr
      · exact h.dates _ (hOldMem _ (Or.inr (Or.inr ho))) fr hfr
    · -- roomEq
      intro o ho
      simp only [allObjs, writerObjs, List.mem_cons, List.mem_append, or_assoc] at ho
      rcases ho with rfl | rfl | ho | ho
      · rfl
      · exact h.roomEq w.openObj (hOldMem w.openObj (Or.inl rfl))
      · exact h.roomEq _ (hOldMem _ (Or.inr (Or.inl ho)))
      · exact h.roomEq _ (hOldMem _ (Or.inr (Or.inr ho)))
    · -- oidLt
      intro o ho
      show o.oid < st.nextOid + 1
      simp only [allObjs, writerObjs, List.mem_cons, List.mem_append, or_assoc] at ho
      rcases ho with rfl | rfl | ho | ho
      · simp only [newObject]
        omega
      · have := hOpenLt
        simp only [sealObj]
        omega
      · have := h.oidLt _ (hOldMem _ (Or.inr (Or.inl ho)))
        omega
      · have := h.oidLt _ (hOldMem _ (Or.inr (Or.inr ho)))
        omega
    · -- oidSorted
      simp only [allObjs, writerObjs, List.cons_append]
      rw [List.pairwise_cons]
      constructor
      · intro b hb
        simp only [List.mem_cons, List.mem_append, or_assoc] at hb
        simp only [newObject]
        rcases hb with rfl | hb | hb
        · simpa [sealObj] using hOpenLt
        · have := h.oidLt _ (hOldMem _ (Or.inr (Or.inl hb)))
          omega
        · have := h.oidLt _ (hOldMem _ (Or.inr (Or.inr hb)))
          omega
      · rw [List.pairwise_cons]
        constructor
        · intro b hb
          simp only [List.mem_append] at hb
          simpa [sealObj] using hTailLt b hb
        · have hp := h.oidSorted
          rw [hOld, List.pairwise_cons] at hp
          exact hp.2
    · -- openFresh
      intro w' hw'
      injection hw' with hww
      subst hww
      rfl
    · -- sealedAll
      intro w' hw' s hs
      injection hw' with hww
      subst hww
      simp only [List.mem_cons] at hs
      rcases hs with rfl | hs
      · rfl
      · exact h.sealedAll w hw s hs
    · -- archSealed
      exact h.archSealed
    · -- counts
      intro o ho
      simp only [allObjs, writerObjs, List.mem_cons, List.mem_append, or_assoc] at ho
      rcases ho with rfl | rfl | ho | ho
      · simp [newObject]
      · simpa [sealObj] using h.counts w.openObj (hOldMem w.openObj (Or.inl rfl))
      · exact h.counts _ (hOldMem _ (Or.inr (Or.inl ho)))
      · exact h.counts _ (hOldMem _ (Or.inr (Or.inr ho)))
    · -- storedObj
      intro i oid ts dd g hi
      rcases get?_append_cases _ _ i _ hi with ⟨_, h2⟩ | ⟨_, h2⟩
      · obtain ⟨o, ho, hoid, hdate⟩ := h.storedObj _ _ _ _ _ h2
        rw [hOld] at ho
        simp only [List.mem_cons, List.mem_append] at ho
        rcases ho with rfl | ho | ho
        · refine ⟨sealObj w.openObj, ?_, hoid, hdate⟩
          simp [allObjs, writerObjs, List.cons_append]
        · refine ⟨o, ?_, hoid, hdate⟩
          simp only [allObjs, writerObjs, List.cons_append, List.mem_cons, List.mem_append]
          tauto
        · refine ⟨o, ?_, hoid, hdate⟩
          simp only [allObjs, writerObjs, List.cons_append, List.mem_cons, List.mem_append]
          tauto
      · have hm := List.get?_mem h2
        simp at hm
        obtain ⟨e1, e2, e3, e4⟩ := hm
        subst e1
        subst e3
        exact ⟨_, List.mem_cons_self _ _, rfl, rfl⟩
    · -- storedMono
      apply storedMono_append _ _ h.storedMono
      · apply storedMono_const _ (newObject cfg st.nextOid
          (if env.date = w.openObj.date then w.openObj.seq + 1 else 0) env).oid
        intro k oid ts dd g hk
        have hm := List.get?_mem hk
        simp at hm
        exact hm.1
      · intro i oid1 ts1 d1 g1 hi j oid2 ts2 d2 g2 hj
        have hb := (h.storedBound _ _ _ _ _ hi).2 w hw
        have hm := List.get?_mem hj
        simp at hm
        rw [hm.1]
        simp only [newObject]
        omega
    · -- storedBound
      intro i oid ts dd g hi
      rcases get?_append_cases _ _ i _ hi with ⟨_, h2⟩ | ⟨_, h2⟩
      · obtain ⟨hb1, hb2⟩ := h.storedBound _ _ _ _ _ h2
        refine ⟨by show oid < st.nextOid + 1; omega, ?_⟩
        intro w' hw'
        injection hw' with hww
        subst hww
        show oid ≤ st.nextOid
        have := hb2 w hw
        omega
      · have hm := List.get?_mem h2
        simp at hm
        obtain ⟨e1, e2, e3, e4⟩ := hm
        subst e1
        refine ⟨by simp only [newObject]; omega, ?_⟩
        intro w' hw'
        injection hw' with hww
        subst hww
        show st.nextOid ≤ st.nextOid
        omega
    · -- sealedEvt
      intro o ho hs
      simp only [allObjs, writerObjs, List.mem_cons, List.mem_append, or_assoc] at ho
      rcases ho with rfl | rfl | ho | ho
      · exact absurd hs (by simp [newObject])
      · exact evIn_new _ _ _ (by simp [sealObj])
      · exact evIn_append _ _ _ (h.sealedEvt _ (hOldMem _ (Or.inr (Or.inl ho))) hs)
      · exact evIn_append _ _ _ (h.sealedEvt _ (hOldMem _ (Or.inr (Or.inr ho))) hs)
    · -- ordered
      intro o1 h1 o2 h2 hlt
      simp only [allObjs, writerObjs, List.mem_cons, List.mem_append, or_assoc] at h1 h2
      rcases h2 with rfl | rfl | h2 | h2
      · -- o2 is the new open object
        rcases h1 with rfl | rfl | h1 | h1
        · omega
        · exact sbo_here _ _ _ _
        · exact sbo_extend _ _ _ _
            (h.sealedEvt _ (hOldMem _ (Or.inr (Or.inl h1))) (hSealedTail _ (Or.inl h1)))
            (by simp)
        · exact sbo_extend _ _ _ _
            (h.sealedEvt _ (hOldMem _ (Or.inr (Or.inr h1))) (hSealedTail _ (Or.inr h1)))
            (by simp)
      · -- o2 is the sealed former open object
        rcases h1 with rfl | rfl | h1 | h1
        · simp only [newObject, sealObj] at hlt
          omega
        · omega
        · exact sbo_append _ _ _ _
            (h.ordered o1 (hOldMem o1 (Or.inr (Or.inl h1))) w.openObj
              (hOldMem w.openObj (Or.inl rfl)) (by simpa [sealObj] using hlt))
        · exact sbo_append _ _ _ _
            (h.ordered o1 (hOldMem o1 (Or.inr (Or.inr h1))) w.openObj
              (hOldMem w.openObj (Or.inl rfl)) (by simpa [sealObj] using hlt))
      · rcases h1 with rfl | rfl | h1 | h1
        · have := hTailLt o2 (Or.inl h2)
          simp only [newObject] at hlt
          omega
        · have := hTailLt o2 (Or.inl h2)
          simp only [sealObj] at hlt
          omega
        · exact sbo_append _ _ _ _
            (h.ordered _ (hOldMem _ (Or.inr (Or.inl h1))) _ (hOldMem _ (Or.inr (Or.inl h2))) hlt)
        · exact sbo_append _ _ _ _
            (h.ordered _ (hOldMem _ (Or.inr (Or.inr h1))) _ (hOldMem _ (Or.inr (Or.inl h2))) hlt)
      · rcases h1 with rfl | rfl | h1 | h1
        · have := hTailLt o2 (Or.inr h2)
          simp only [newObject] at hlt
          omega
        · have := hTailLt o2 (Or.inr h2)
          simp only [sealObj] at hlt
          omega
        · exact sbo_append _ _ _ _
            (h.ordered _ (hOldMem _ (Or.inr (Or.inl h1))) _ (hOldMem _ (Or.inr (Or.inr h2))) hlt)
        · exact sbo_append _ _ _ _
            (h.ordered _ (hOldMem _ (Or.inr (Or.inr h1))) _ (hOldMem _ (Or.inr (Or.inr h2))) hlt)
  case isFalse hcond =>
    have hdate : env.date = w.openObj.date := by
      push_neg at hcond
      exact hcond.1
    refine ⟨?_, ?_, ?_, ?_, ?_, ?_, ?_, ?_, ?_, ?_, ?_, ?_, ?_, ?_⟩
    · intro habs
      rw [hph] at habs
      exact RoomPhase.noConfusion habs
    · -- dates
      intro o ho fr hfr
      simp only [allObjs, writerObjs, List.mem_cons, List.mem_append, or_assoc] at ho
      rcases ho with rfl | ho | ho
      · simp only [List.mem_append, List.mem_singleton] at hfr
        rcases hfr with hfr | hfr
        · exact h.dates w.openObj (hOldMem w.openObj (Or.inl rfl)) fr hfr
        · rw [hfr, hdate]
      · exact h.dates _ (hOldMem _ (Or.inr (Or.inl ho))) fr hfr
      · exact h.dates _ (hOldMem _ (Or.inr (Or.inr ho))) fr hfr
    · -- roomEq
      intro o ho
      simp only [allObjs, writerObjs, List.mem_cons, List.mem_append, or_assoc] at ho
      rcases ho with rfl | ho | ho
      · exact h.roomEq w.openObj (hOldMem w.openObj (Or.inl rfl))
      · exact h.roomEq _ (hOldMem _ (Or.inr (Or.inl ho)))
      · exact h.roomEq _ (hOldMem _ (Or.inr (Or.inr ho)))
    · -- oidLt
      intro o ho
      show o.oid < st.nextOid
      simp only [allObjs, writerObjs, List.mem_cons, List.mem_append, or_assoc] at ho
      rcases ho with rfl | ho | ho
      · exact hOpenLt
      · exact h.oidLt _ (hOldMem _ (Or.inr (Or.inl ho)))
      · exact h.oidLt _ (hOldMem _ (Or.inr (Or.inr ho)))
    · -- oidSorted
      simp only [allObjs, writerObjs, List.cons_append]
      rw [List.pairwise_cons]
      constructor
      · intro b hb
        simp only [List.mem_append] at hb
        exact hTailLt b hb
      · have hp := h.oidSorted
        rw [hOld, List.pairwise_cons] at hp
        exact hp.2
    · -- openFresh
      intro w' hw'
      have := Option.some.inj hw'
      rw [← this]
      exact h.openFresh w hw
    · -- sealedAll
      intro w' hw' s hs
      have := Option.some.inj hw'
      rw [← this] at hs
      exact h.sealedAll w hw s hs
    · -- archSealed
      exact h.archSealed
    · -- counts
      intro o ho
      simp only [allObjs, writerObjs, List.mem_cons, List.mem_append, or_assoc] at ho
      rcases ho with rfl | ho | ho
      · obtain ⟨hc1, hc2⟩ := h.counts _ (hOldMem _ (Or.inl rfl))
        constructor
        · simp [hc1]
        · simp [hc2, List.map_append, List.sum_append]
      · exact h.counts _ (hOldMem _ (Or.inr (Or.inl ho)))
      · exact h.counts _ (hOldMem _ (Or.inr (Or.inr ho)))
    · -- storedObj
      intro i oid ts dd g hi
      rcases get?_append_cases _ _ i _ hi with ⟨_, h2⟩ | ⟨_, h2⟩
      · obtain ⟨o, ho, hoid, hdate'⟩ := h.storedObj _ _ _ _ _ h2
        rw [hOld] at ho
        simp only [List.mem_cons, List.mem_append] at ho
        rcases ho with rfl | ho | ho
        · exact ⟨_, List.mem_cons_self _ _, hoid, hdate'⟩
        · refine ⟨o, ?_, hoid, hdate'⟩
          simp only [allObjs, writerObjs, List.cons_append, List.mem_cons, List.mem_append]
          tauto
        · refine ⟨o, ?_, hoid, hdate'⟩
          simp only [allObjs, writerObjs, List.cons_append, List.mem_cons, List.mem_append]
          tauto
      · have hm := List.get?_mem h2
        simp at hm
        obtain ⟨e1, e2, e3, e4⟩ := hm
        subst e1
        subst e3
        exact ⟨_, List.mem_cons_self _ _, rfl, hdate.symm⟩
    · -- storedMono
      apply storedMono_append _ _ h.storedMono
      · apply storedMono_const _ w.openObj.oid
        intro k oid ts dd g hk
        have hm := List.get?_mem hk
        simp at hm
        exact hm.1
      · intro i oid1 ts1 d1 g1 hi j oid2 ts2 d2 g2 hj
        have hb := (h.storedBound _ _ _ _ _ hi).2 w hw
        have hm := List.get?_mem hj
        simp at hm
        rw [hm.1]
        exact hb
    · -- storedBound
      intro i oid ts dd g hi
      rcases get?_append_cases _ _ i _ hi with ⟨_, h2⟩ | ⟨_, h2⟩
      · obtain ⟨hb1, hb2⟩ := h.storedBound _ _ _ _ _ h2
        refine ⟨hb1, ?_⟩
        intro w' hw'
        have := Option.some.inj hw'
        rw [← this]
        exact hb2 w hw
      · have hm := List.get?_mem h2
        simp only [List.mem_singleton] at hm
        cases hm
        refine ⟨hOpenLt, ?_⟩
        intro w' hw'
        have := Option.some.inj hw'
        rw [← this]
    · -- sealedEvt
      intro o ho hs
      simp only [allObjs, writerObjs, List.mem_cons, List.mem_append, or_assoc] at ho
      rcases ho with rfl | ho | ho
      · exact absurd hs (by simp [h.openFresh w hw])
      · exact evIn_append _ _ _ (h.sealedEvt _ (hOldMem _ (Or.inr (Or.inl ho))) hs)
      · exact evIn_append _ _ _ (h.sealedEvt _ (hOldMem _ (Or.inr (Or.inr ho))) hs)
    · -- ordered
      intro o1 h1 o2 h2 hlt
      simp only [allObjs, writerObjs, List.mem_cons, List.mem_append, or_assoc] at h1 h2
      have ho1 : ∃ y ∈ allObjs st, y.oid = o1.oid := by
        rcases h1 with rfl | h1 | h1
        · exact ⟨w.openObj, hOldMem _ (Or.inl rfl), rfl⟩
        · exact ⟨o1, hOldMem _ (Or.inr (Or.inl h1)), rfl⟩
        · exact ⟨o1, hOldMem _ (Or.inr (Or.inr h1)), rfl⟩
      have ho2 : ∃ y ∈ allObjs st, y.oid = o2.oid := by
        rcases h2 with rfl | h2 | h2
        · exact ⟨w.openObj, hOldMem _ (Or.inl rfl), rfl⟩
        · exact ⟨o2, hOldMem _ (Or.inr (Or.inl h2)), rfl⟩
        · exact ⟨o2, hOldMem _ (Or.inr (Or.inr h2)), rfl⟩
      obtain ⟨y1, hy1, hy1e⟩ := ho1
      obtain ⟨y2, hy2, hy2e⟩ := ho2
      have := h.ordered y1 hy1 y2 hy2 (by omega)
      rw [hy1e, hy2e] at this
      exact sbo_append _ _ _ _ this

/-- A `StartRecording` from Idle (writer empty) preserves the Storage
Writer invariant: a fresh object is opened with the next id. -/
theorem writerInv_startState (cfg : Config) (st : SysState) (env : Env)
    (hwn : st.writer = none) (h : WriterInv cfg st) :
    WriterInv cfg { st with
      phase := .recording
      sessions := { sid := st.nextSid, startTime := env.time, endTime := none
                    sizeBytes := 0, frameCount := 0
                    status := .recording } :: st.sessions
      writer := some { openObj := newObject cfg st.nextOid 0 env, sealedObjs := [] }
      nextSid := st.nextSid + 1
      nextOid := st.nextOid + 1
      trace := st.trace ++ [.sessionStarted st.nextSid,
        .openedObj (newObject cfg st.nextOid 0 env).oid] } := by
  have hOldA : allObjs st = st.archive := by
    simp [allObjs, writerObjs, hwn]
  have hArch : ∀ x : StorageObject, x ∈ st.archive → x ∈ allObjs st := by
    intro x hx
    rw [hOldA]
    exact hx
  have hnostored : ∀ (x : Event), x ∈ [Event.sessionStarted st.nextSid,
      Event.openedObj (newObject cfg st.nextOid 0 env).oid] →
      ∀ oid ts d g, x ≠ .frameStored oid ts d g := by
    intro x hx oid ts d g
    simp only [List.mem_cons, List.mem_singleton] at hx
    rcases hx with rfl | rfl | hx
    · simp
    · simp
    · exact absurd hx (List.not_mem_nil x)
  refine ⟨?_, ?_, ?_, ?_, ?_, ?_, ?_, ?_, ?_, ?_, ?_, ?_, ?_, ?_⟩
  · intro habs
    exact RoomPhase.noConfusion habs
  · intro o ho fr hfr
    simp only [allObjs, writerObjs, List.cons_append, List.nil_append,
      List.mem_cons] at ho
    rcases ho with rfl | ho
    · exact absurd hfr (List.not_mem_nil fr)
    · exact h.dates o (hArch o ho) fr hfr
  · intro o ho
    simp only [allObjs, writerObjs, List.cons_append, List.nil_append,
      List.mem_cons] at ho
    rcases ho with rfl | ho
    · rfl
    · exact h.roomEq o (hArch o ho)
  · intro o ho
    show o.oid < st.nextOid + 1
    simp only [allObjs, writerObjs, List.cons_append, List.nil_append,
      List.mem_cons] at ho
    rcases ho with rfl | ho
    · simp only [newObject]
      omega
    · have := h.oidLt o (hArch o ho)
      omega
  · simp only [allObjs, writerObjs, List.cons_append, List.nil_append]
    rw [List.pairwise_cons]
    constructor
    · intro b hb
      have := h.oidLt b (hArch b hb)
      simp only [newObject]
      omega
    · have hp := h.oidSorted
      rw [hOldA] at hp
      exact hp
  · intro w' hw'
    injection hw' with hww
    subst hww
    rfl
  · intro w' hw' s hs
    injection hw' with hww
    subst hww
    exact absurd hs (List.not_mem_nil s)
  · exact h.archSealed
  · intro o ho
    simp only [allObjs, writerObjs, List.cons_append, List.nil_append,
      List.mem_cons] at ho
    rcases ho with rfl | ho
    · simp [newObject]
    · exact h.counts o (hArch o ho)
  · intro i oid ts d g hi
    rcases get?_append_cases _ _ i _ hi with ⟨_, h2⟩ | ⟨_, h2⟩
    · obtain ⟨o, ho, hoid, hdate⟩ := h.storedObj _ _ _ _ _ h2
      rw [hOldA] at ho
      exact ⟨o, List.mem_cons_of_mem _ ho, hoid, hdate⟩
    · exact absurd rfl (hnostored _ (List.get?_mem h2) _ _ _ _)
  · apply storedMono_append _ _ h.storedMono
    · apply storedMono_const _ 0
      intro k oid ts d g hk
      exact absurd rfl (hnostored _ (List.get?_mem hk) _ _ _ _)
    · intro i oid1 ts1 d1 g1 _ j oid2 ts2 d2 g2 hj
      exact absurd rfl (hnostored _ (List.get?_mem hj) _ _ _ _)
  · intro i oid ts d g hi
    rcases get?_append_cases _ _ i _ hi with ⟨_, h2⟩ | ⟨_, h2⟩
    · have hb := (h.storedBound _ _ _ _ _ h2).1
      refine ⟨by show oid < st.nextOid + 1; omega, ?_⟩
      intro w' hw'
      injection hw' with hww
      subst hww
      show oid ≤ st.nextOid
      omega
    · exact absurd rfl (hnostored _ (List.get?_mem h2) _ _ _ _)
  · intro o ho hs
    simp only [allObjs, writerObjs, List.cons_append, List.nil_append,
      List.mem_cons] at ho
    rcases ho with rfl | ho
    · exact absurd hs (by simp [newObject])
    · exact evIn_append _ _ _ (h.sealedEvt o (hArch o ho) hs)
  · intro o1 h1 o2 h2 hlt
    simp only [allObjs, writerObjs, List.cons_append, List.nil_append,
      List.mem_cons] at h1 h2
    rcases h2 with rfl | h2
    · rcases h1 with rfl | h1
      · omega
      · exact sbo_extend _ _ _ _
          (h.sealedEvt o1 (hArch o1 h1) (h.archSealed o1 h1)) (by simp)
    · rcases h1 with rfl | h1
      · have := h.oidLt o2 (hArch o2 h2)
        simp only [newObject] at hlt
        omega
      · exact sbo_append _ _ _ _
          (h.ordered o1 (hArch o1 h1) o2 (hArch o2 h2) hlt)

/-- A `StopRecording` preserves the Storage Writer invariant: the open
object is sealed (emitting its `sealedObj` event) and the session's
objects move to the archive. -/
theorem writerInv_stopState (cfg : Config) (st : SysState) (env : Env) (w : WriterState)
    (hw : st.writer = some w) (h : WriterInv cfg st) :
    WriterInv cfg { st with
      phase := .idle
      sessions := updateHeadSession
        (fun s => { s with status := .stopped, endTime := some env.time }) st.sessions
      writer := none
      archive := sealObj w.openObj :: w.sealedObjs ++ st.archive
      trace := st.trace ++ [.sealedObj w.openObj.oid,
        .sessionFinal (headSid st) .stopped] } := by
  have hOld : allObjs st = w.openObj :: (w.sealedObjs ++ st.archive) := by
    simp [allObjs, writerObjs, hw]
  have hOldMem : ∀ x : StorageObject,
      (x = w.openObj ∨ x ∈ w.sealedObjs ∨ x ∈ st.archive) → x ∈ allObjs st := by
    intro x hx
    rw [hOld]
    simp only [List.mem_cons, List.mem_append]
    tauto
  have hSealedTail : ∀ x, x ∈ w.sealedObjs ∨ x ∈ st.archive → x.sealed = true := by
    intro x hx
    rcases hx with hx | hx
    · exact h.sealedAll w hw x hx
    · exact h.archSealed x hx
  have hnostored : ∀ (x : Event), x ∈ [Event.sealedObj w.openObj.oid,
      Event.sessionFinal (headSid st) .stopped] →
      ∀ oid ts d g, x ≠ .frameStored oid ts d g := by
    intro x hx oid ts d g
    simp only [List.mem_cons, List.mem_singleton] at hx
    rcases hx with rfl | rfl | hx
    · simp
    · simp
    · exact absurd hx (List.not_mem_nil x)
  refine ⟨?_, ?_, ?_, ?_, ?_, ?_, ?_, ?_, ?_, ?_, ?_, ?_, ?_, ?_⟩
  · intro _
    rfl
  · intro o ho fr hfr
    simp only [allObjs, writerObjs, List.nil_append, List.mem_cons,
      List.mem_append, or_assoc] at ho
    rcases ho with rfl | ho | ho
    · exact h.dates w.openObj (hOldMem w.openObj (Or.inl rfl)) fr hfr
    · exact h.dates o (hOldMem o (Or.inr (Or.inl ho))) fr hfr
    · exact h.dates o (hOldMem o (Or.inr (Or.inr ho))) fr hfr
  · intro o ho
    simp only [allObjs, writerObjs, List.nil_append, List.mem_cons,
      List.mem_append, or_assoc] at ho
    rcases ho with rfl | ho | ho
    · exact h.roomEq w.openObj (hOldMem w.openObj (Or.inl rfl))
    · exact h.roomEq o (hOldMem o (Or.inr (Or.inl ho)))
    · exact h.roomEq o (hOldMem o (Or.inr (Or.inr ho)))
  · intro o ho
    show o.oid < st.nextOid
    simp only [allObjs, writerObjs, List.nil_append, List.mem_cons,
      List.mem_append, or_assoc] at ho
    rcases ho with rfl | ho | ho
    · exact h.oidLt w.openObj (hOldMem w.openObj (Or.inl rfl))
    · exact h.oidLt o (hOldMem o (Or.inr (Or.inl ho)))
    · exact h.oidLt o (hOldMem o (Or.inr (Or.inr ho)))
  · simp only [allObjs, writerObjs, List.nil_append, List.cons_append]
    have hp := h.oidSorted
    rw [hOld, List.pairwise_cons] at hp
    rw [List.pairwise_cons]
    exact ⟨hp.1, hp.2⟩
  · intro w' hw'
    exact Option.noConfusion hw'
  · intro w' hw'
    exact Option.noConfusion hw'
  · intro o ho
    simp only [List.mem_cons, List.mem_append, or_assoc] at ho
    rcases ho with rfl | ho | ho
    · rfl
    · exact hSealedTail o (Or.inl ho)
    · exact hSealedTail o (Or.inr ho)
  · intro o ho
    simp only [allObjs, writerObjs, List.nil_append, List.mem_cons,
      List.mem_append, or_assoc] at ho
    rcases ho with rfl | ho | ho
    · simpa [sealObj] using h.counts w.openObj (hOldMem w.openObj (Or.inl rfl))
    · exact h.counts o (hOldMem o (Or.inr (Or.inl ho)))
    · exact h.counts o (hOldMem o (Or.inr (Or.inr ho)))
  · intro i oid ts d g hi
    rcases get?_append_cases _ _ i _ hi with ⟨_, h2⟩ | ⟨_, h2⟩
    · obtain ⟨o, ho, hoid, hdate⟩ := h.storedObj _ _ _ _ _ h2
      rw [hOld] at ho
      simp only [List.mem_cons, List.mem_append, or_assoc] at ho
      rcases ho with rfl | ho | ho
      · exact ⟨sealObj w.openObj, List.mem_cons_self _ _, hoid, hdate⟩
      · refine ⟨o, ?_, hoid, hdate⟩
        simp only [allObjs, writerObjs, List.nil_append, List.mem_cons,
          List.mem_append]
        tauto
      · refine ⟨o, ?_, hoid, hdate⟩
        simp only [allObjs, writerObjs, List.nil_append, List.mem_cons,
          List.mem_append]
        tauto
    · exact absurd rfl (hnostored _ (List.get?_mem h2) _ _ _ _)
  · apply storedMono_append _ _ h.storedMono
    · apply storedMono_const _ 0
      intro k oid ts d g hk
      exact absurd rfl (hnostored _ (List.get?_mem hk) _ _ _ _)
    · intro i oid1 ts1 d1 g1 _ j oid2 ts2 d2 g2 hj
      exact absurd rfl (hnostored _ (List.get?_mem hj) _ _ _ _)
  · intro i oid ts d g hi
    rcases get?_append_cases _ _ i _ hi with ⟨_, h2⟩ | ⟨_, h2⟩
    · refine ⟨(h.storedBound _ _ _ _ _ h2).1, ?_⟩
      intro w' hw'
      exact Option.noConfusion hw'
    · exact absurd rfl (hnostored _ (List.get?_mem h2) _ _ _ _)
  · intro o ho hs
    simp only [allObjs, writerObjs, List.nil_append, List.mem_cons,
      List.mem_append, or_assoc] at ho
    rcases ho with rfl | ho | ho
    · exact evIn_new _ _ _ (by simp [sealObj])
    · exact evIn_append _ _ _ (h.sealedEvt o (hOldMem o (Or.inr (Or.inl ho))) hs)
    · exact evIn_append _ _ _ (h.sealedEvt o (hOldMem o (Or.inr (Or.inr ho))) hs)
  · intro o1 h1 o2 h2 hlt
    simp only [allObjs, writerObjs, List.nil_append, List.mem_cons,
      List.mem_append, or_assoc] at h1 h2
    have ho1 : ∃ y ∈ allObjs st, y.oid = o1.oid := by
      rcases h1 with rfl | h1 | h1
      · exact ⟨w.openObj, hOldMem _ (Or.inl rfl), rfl⟩
      · exact ⟨o1, hOldMem _ (Or.inr (Or.inl h1)), rfl⟩
      · exact ⟨o1, hOldMem _ (Or.inr (Or.inr h1)), rfl⟩
    have ho2 : ∃ y ∈ allObjs st, y.oid = o2.oid := by
      rcases h2 with rfl | h2 | h2
      · exact ⟨w.openObj, hOldMem _ (Or.inl rfl), rfl⟩
      · exact ⟨o2, hOldMem _ (Or.inr (Or.inl h2)), rfl⟩
      · exact ⟨o2, hOldMem _ (Or.inr (Or.inr h2)), rfl⟩
    obtain ⟨y1, hy1, hy1e⟩ := ho1
    obtain ⟨y2, hy2, hy2e⟩ := ho2
    have := h.ordered y1 hy1 y2 hy2 (by omega)
    rw [hy1e, hy2e] at this
    exact sbo_append _ _ _ _ this

/-- Quota and cache updates do not touch the Storage Writer state. -/
theorem writerInv_quotaCache (cfg : Config) (st : SysState) (q' : Quota)
    (c' : List CacheEntry) (h : WriterInv cfg st) :
    WriterInv cfg { st with quota := q', cache := c' } :=
  ⟨h.idleWriter, h.dates, h.roomEq, h.oidLt, h.oidSorted, h.openFresh, h.sealedAll,
   h.archSealed, h.counts, h.storedObj, h.storedMono, h.storedBound, h.sealedEvt,
   h.ordered⟩

/-- Every pipeline step preserves the Storage Writer invariant. -/
theorem writerInv_step (cfg : Config) (st : SysState) (m : Msg) (h : WriterInv cfg st) :
    WriterInv cfg (processMsg cfg st m) := by
  obtain ⟨ph, ss, q, c, wr, ar, ns, no, tr⟩ := st
  cases m with
  | control a env =>
      cases a with
      | startRecording =>
          cases ph with
          | idle =>
              have hwn : wr = none := h.idleWriter rfl
              subst hwn
              exact writerInv_startState cfg
                { phase := .idle, sessions := ss, quota := q, cache := c, writer := none
                  archive := ar, nextSid := ns, nextOid := no, trace := tr } env rfl h
          | recording => exact writerInv_addEvent _ _ _ (fun _ _ _ _ => by simp) h
          | paused => exact writerInv_addEvent _ _ _ (fun _ _ _ _ => by simp) h
      | pauseRecording =>
          cases ph with
          | idle => exact writerInv_addEvent _ _ _ (fun _ _ _ _ => by simp) h
          | recording =>
              exact ⟨fun habs => RoomPhase.noConfusion habs, h.dates, h.roomEq, h.oidLt,
                h.oidSorted, h.openFresh, h.sealedAll, h.archSealed, h.counts,
                h.storedObj, h.storedMono, h.storedBound, h.sealedEvt, h.ordered⟩
          | paused => exact writerInv_addEvent _ _ _ (fun _ _ _ _ => by simp) h
      | resumeRecording =>
          cases ph with
          | idle => exact writerInv_addEvent _ _ _ (fun _ _ _ _ => by simp) h
          | recording => exact writerInv_addEvent _ _ _ (fun _ _ _ _ => by simp) h
          | paused =>
              exact ⟨fun habs => RoomPhase.noConfusion habs, h.dates, h.roomEq, h.oidLt,
                h.oidSorted, h.openFresh, h.sealedAll, h.archSealed, h.counts,
                h.storedObj, h.storedMono, h.storedBound, h.sealedEvt, h.ordered⟩
      | stopRecording =>
          cases ph with
          | idle => exact writerInv_addEvent _ _ _ (fun _ _ _ _ => by simp) h
          | recording =>
              cases wr with
              | none => exact writerInv_addEvent _ _ _ (fun _ _ _ _ => by simp) h
              | some w =>
                  exact writerInv_stopState cfg
                    { phase := .recording, sessions := ss, quota := q, cache := c
                      writer := some w, archive := ar, nextSid := ns, nextOid := no
                      trace := tr } env w rfl h
          | paused =>
              cases wr with
              | none => exact writerInv_addEvent _ _ _ (fun _ _ _ _ => by simp) h
              | some w =>
                  exact writerInv_stopState cfg
                    { phase := .paused, sessions := ss, quota := q, cache := c
                      writer := some w, archive := ar, nextSid := ns, nextOid := no
                      trace := tr } env w rfl h
  | frame f env =>
      cases ph with
      | idle => exact writerInv_addEvent _ _ _ (fun _ _ _ _ => by simp) h
      | paused => exact writerInv_addEvent _ _ _ (fun _ _ _ _ => by simp) h
      | recording =>
          cases wr with
          | none => exact writerInv_addEvent _ _ _ (fun _ _ _ _ => by simp) h
          | some w =>
              by_cases hq : q.used + f.payload.length ≤ q.limit
              · simp only [processMsg, processFrame, quotaAdmit, hq, if_true]
                by_cases hcu : env.cacheUp
                · simp only [hcu, if_true]
                  cases hl : cacheLookup cfg env.time f.payload c with
                  | some e =>
                      exact writerInv_addEvent _ _ _ (fun _ _ _ _ => by simp)
                        (writerInv_quotaCache cfg
                          { phase := .recording, sessions := ss, quota := q, cache := c
                            writer := some w, archive := ar, nextSid := ns, nextOid := no
                            trace := tr } _ _ h)
                  | none =>
                      exact writerInv_storeFrame cfg _ f env false w rfl rfl
                        (writerInv_quotaCache cfg
                          { phase := .recording, sessions := ss, quota := q, cache := c
                            writer := some w, archive := ar, nextSid := ns, nextOid := no
                            trace := tr } _ _ h)
                · simp only [hcu, Bool.false_eq_true, if_false]
                  exact writerInv_storeFrame cfg _ f env true w rfl rfl
                    (writerInv_quotaCache cfg
                      { phase := .recording, sessions := ss, quota := q, cache := c
                        writer := some w, archive := ar, nextSid := ns, nextOid := no
                        trace := tr } _ _ h)
              · simp only [processMsg, processFrame, quotaAdmit, hq, if_false]
                exact writerInv_addEvent _ _ _ (fun _ _ _ _ => by simp) h

/-- The Storage Writer invariant holds in every reachable state. -/
theorem writerInv_run (cfg : Config) (msgs : List Msg) :
    WriterInv cfg (runMsgs cfg msgs) := by
  suffices hs : ∀ st, WriterInv cfg st → WriterInv cfg (msgs.foldl (processMsg cfg) st) from
    hs _ (writerInv_init cfg)
  induction msgs with
  | nil => exact fun st h => h
  | cons m ms ih => exact fun st h => ih _ (writerInv_step cfg st m h)

/-! ## Claim theorems: day rollover (C6) -/

/-- C6: in every run, two frames stored on different wall-clock calendar
dates land in two distinct StorageObjects (their `frameStored` events
name different object ids), and the earlier frame's object was sealed at
a trace position strictly before the later frame's object was opened;
moreover every object holds only frames of its own arrival date, and its
frame count and byte size match its contents exactly (so they are final
once the object is sealed). -/
theorem dayRollover_isolation (cfg : Config) (msgs : List Msg) :
    (∀ i j oid1 oid2 ts1 ts2 d1 d2 g1 g2, i < j →
      (runMsgs cfg msgs).trace.get? i = some (.frameStored oid1 ts1 d1 g1) →
      (runMsgs cfg msgs).trace.get? j = some (.frameStored oid2 ts2 d2 g2) →
      d1 ≠ d2 →
      oid1 ≠ oid2 ∧ SealedBeforeOpened (runMsgs cfg msgs).trace oid1 oid2)
    ∧ (∀ o ∈ allObjs (runMsgs cfg msgs),
        (∀ fr ∈ o.frames, fr.date = o.date)
        ∧ o.frameCount = o.frames.length
        ∧ o.sizeBytes = (o.frames.map StoredFrame.size).sum) := by
  have h := writerInv_run cfg msgs
  constructor
  · intro i j oid1 oid2 ts1 ts2 d1 d2 g1 g2 hij hi hj hne
    obtain ⟨o1, ho1, hoid1, hd1⟩ := h.storedObj _ _ _ _ _ hi
    obtain ⟨o2, ho2, hoid2, hd2⟩ := h.storedObj _ _ _ _ _ hj
    have hle : oid1 ≤ oid2 := h.storedMono i j _ _ _ _ _ _ _ _ hij hi hj
    have hneq : oid1 ≠ oid2 := by
      intro he
      have heq : o1 = o2 :=
        pairwise_oid_unique _ h.oidSorted o1 ho1 o2 ho2 (by rw [hoid1, hoid2, he])
      apply hne
      rw [← hd1, ← hd2, heq]
    refine ⟨hneq, ?_⟩
    have hlt : o1.oid < o2.oid := by omega
    have hsbo := h.ordered o1 ho1 o2 ho2 hlt
    rw [hoid1, hoid2] at hsbo
    exact hsbo
  · intro o ho
    exact ⟨h.dates o ho, (h.counts o ho).1, (h.counts o ho).2⟩

/-- A run crossing a calendar-day boundary. -/
def msgsC6 : List Msg :=
  [.control .startRecording { time := 0, date := "2024-01-20", cacheUp := true },
   .frame { timestamp := 100, payload := [1], kind := .video }
     { time := 100, date := "2024-01-20", cacheUp := true },
   .frame { timestamp := 200, payload := [2], kind := .video }
     { time := 200, date := "2024-01-21", cacheUp := false }]

theorem dayRollover_isolation_witness :
    (0 : Nat) ≠ 1 ∧ SealedBeforeOpened (runMsgs cfgW msgsC6).trace 0 1 :=
  (dayRollover_isolation cfgW msgsC6).1 2 5 0 1 100 200 "2024-01-20" "2024-01-21"
    false true (by omega) (by decide) (by decide) (by decide)

/-! ## Claim theorems: storage key format (C7) -/

/-- If `storeFrame` replaced the open object (a rollover), the arrival
date differed from the open object's day or the size cap was exceeded. -/
theorem storeFrame_writer_oid (cfg : Config) (st : SysState) (f : FrameMsg) (env : Env)
    (d : Bool) (w w' : WriterState)
    (hw' : (storeFrame cfg st f env d w).writer = some w')
    (hne : w'.openObj.oid ≠ w.openObj.oid) :
    env.date ≠ w.openObj.date
      ∨ cfg.sizeCap < w.openObj.sizeBytes + f.payload.length := by
  simp only [storeFrame] at hw'
  split at hw'
  case isTrue hcond =>
    rcases hcond with hcond | hcond
    · exact Or.inl hcond
    · exact Or.inr hcond.1
  case isFalse hcond =>
    injection hw' with hww
    subst hww
    exact absurd rfl hne

/-- The run with one session, one frame, stopped — all on one day. -/
def msgsC7a : List Msg :=
  [.control .startRecording { time := 1000, date := "2024-01-20", cacheUp := true },
   .frame { timestamp := 5000, payload := [1, 2, 3], kind := .video }
     { time := 5000, date := "2024-01-20", cacheUp := true },
   .control .stopRecording { time := 6000, date := "2024-01-20", cacheUp := true }]

/-- Two whole Start/frame/Stop sessions on the same calendar day. -/
def msgsC7b : List Msg :=
  msgsC7a ++
  [.control .startRecording { time := 7000, date := "2024-01-20", cacheUp := true },
   .frame { timestamp := 8000, payload := [9], kind := .video }
     { time := 8000, date := "2024-01-20", cacheUp := false },
   .control .stopRecording { time := 9000, date := "2024-01-20", cacheUp := true }]

/-- C7 counterexample: the sealed object of `msgsC7a` is stored under
`room-1/2024-01-20/1000.raw` — a timestamp, as documented in
`src/docs/api.md` — not under the sequence-numbered
`room-1/2024-01-20/0.raw` the claim asserts; and `msgsC7b` produces two
sealed objects for the same room and calendar day although no size-cap
rollover occurred (both objects are far below the cap). -/
theorem storageKey_seq_counterexample :
    ((runMsgs cfgW msgsC7a).archive.map StorageObject.key)
      = ["room-1/2024-01-20/1000.raw"]
    ∧ ((runMsgs cfgW msgsC7a).archive.map claimedSeqKey)
      = ["room-1/2024-01-20/0.raw"]
    ∧ ("room-1/2024-01-20/1000.raw" : String) ≠ "room-1/2024-01-20/0.raw"
    ∧ ((runMsgs cfgW msgsC7b).archive.map
        (fun o => (o.room, o.date, o.sealed, o.sizeBytes)))
      = [("room-1", "2024-01-20", true, 1), ("room-1", "2024-01-20", true, 3)]
    ∧ (((runMsgs cfgW msgsC7b).archive.map StorageObject.sizeBytes).all
        (fun s => s ≤ cfgW.sizeCap)) = true := by
  exact ⟨by decide, by decide, by decide, by decide, by decide⟩

/-- C7 (amended): every StorageObject of every run is keyed
`{room_id}/{date}/{timestamp}.raw` — the configured room, the calendar
date shared by all frames the object holds, and the wall-clock timestamp
at which the object was opened; and within a session a new object is
opened (rather than appending to the current one) only when the arrival
date changed or the size cap would be exceeded, so same-day objects arise
only from size-cap rollovers or separate recording sessions and are
disambiguated by the timestamp component. -/
theorem storageKey_format (cfg : Config) (msgs : List Msg) :
    (∀ o ∈ allObjs (runMsgs cfg msgs),
      o.key = cfg.room ++ "/" ++ o.date ++ "/" ++ toString o.openedAt ++ ".raw"
      ∧ ∀ fr ∈ o.frames, fr.date = o.date)
    ∧ (∀ (st : SysState) (f : FrameMsg) (env : Env) (w w' : WriterState),
        st.phase = .recording → st.writer = some w →
        (processFrame cfg st f env).writer = some w' →
        w'.openObj.oid ≠ w.openObj.oid →
        env.date ≠ w.openObj.date
          ∨ cfg.sizeCap < w.openObj.sizeBytes + f.payload.length) := by
  constructor
  · intro o ho
    have h := writerInv_run cfg msgs
    refine ⟨?_, h.dates o ho⟩
    simp only [StorageObject.key]
    rw [h.roomEq o ho]
  · intro st f env w w' hph hw hw' hne
    obtain ⟨ph, ss, q, c, wr, ar, ns, no, tr⟩ := st
    simp only at hph hw
    subst hph
    subst hw
    by_cases hq : q.used + f.payload.length ≤ q.limit
    · simp only [processFrame, quotaAdmit, hq, if_true] at hw'
      by_cases hcu : env.cacheUp
      · simp only [hcu, if_true] at hw'
        cases hl : cacheLookup cfg env.time f.payload c with
        | some e =>
            rw [hl] at hw'
            injection hw' with hww
            rw [← hww] at hne
            exact absurd rfl hne
        | none =>
            rw [hl] at hw'
            exact storeFrame_writer_oid cfg _ f env false w w' hw' hne
      · simp only [hcu, Bool.false_eq_true, if_false] at hw'
        exact storeFrame_writer_oid cfg _ f env true w w' hw' hne
    · simp only [processFrame, quotaAdmit, hq, if_false] at hw'
      injection hw' with hww
      rw [← hww] at hne
      exact absurd rfl hne

theorem storageKey_format_witness :
    ((runMsgs cfgW msgsC7a).archive.getD 0 dummyObj).key
      = cfgW.room ++ "/" ++ ((runMsgs cfgW msgsC7a).archive.getD 0 dummyObj).date
        ++ "/" ++ toString ((runMsgs cfgW msgsC7a).archive.getD 0 dummyObj).openedAt
        ++ ".raw"
    ∧ (({ time := 200, date := "2024-01-21", cacheUp := false } : Env).date
        ≠ (((runMsgs cfgW (msgsC6.take 2)).writer.getD dummyWriter).openObj).date
      ∨ cfgW.sizeCap
        < (((runMsgs cfgW (msgsC6.take 2)).writer.getD dummyWriter).openObj).sizeBytes
          + ([2] : List Nat).length) := by
  constructor
  · exact ((storageKey_format cfgW msgsC7a).1 _ (by decide)).1
  · exact (storageKey_format cfgW msgsC6).2
      (runMsgs cfgW (msgsC6.take 2))
      { timestamp := 200, payload := [2], kind := .video }
      { time := 200, date := "2024-01-21", cacheUp := false }
      ((runMsgs cfgW (msgsC6.take 2)).writer.getD dummyWriter)
      ((processFrame cfgW (runMsgs cfgW (msgsC6.take 2))
        { timestamp := 200, payload := [2], kind := .video }
        { time := 200, date := "2024-01-21", cacheUp := false }).writer.getD dummyWriter)
      (by decide) (by decide) (by decide) (by decide)

end StreamRecorder
